import Mathlib

/-!
# arptest: ARP probe and interface resolution

A shallow embedding of `arptest.c` (reply validation, request construction,
the receive loop of `main`) and of `find_device.c` (`check_ifflags`,
`find_device_by_ifaddrs`, the `find_device` chain), followed by the
properties proved about them.

Conventions of the embedding:
* a byte is `Fin 256`, a C byte array of length `n` is a list of that length;
* an `unsigned short` field holds a value below `65536`; the byte order of
  the host is a parameter `big_endian`, so that `htons` is the identity on a
  big-endian host and a byte swap on a little-endian one;
* system calls are answered by an explicit environment, and the calls made
  are recorded in a trace;
* `exit` is an outcome of its own, distinct from returning, and so is
  undefined behaviour (a null name handed to `if_nametoindex`);
* an `unsigned int` stored into an `int` goes through the 32-bit conversion.
-/

namespace Arptest

/-! ## Bytes, arrays, byte order -/

/-- One byte of memory (`uint8_t`, `unsigned char`). -/
abbrev Octet := Fin 256

/-- A C array of `n` bytes. -/
abbrev ByteArr (n : Nat) := { l : List Octet // l.length = n }

/-- An `unsigned short` as stored in a struct field. -/
abbrev U16 := Fin 65536

/-- Exit codes of `arptest.c`. -/
def ERR_SUCCESS : Int := 0
def ERR_FAIL : Int := 1
def ERR_ARGS : Int := 2
def ERR_SYS : Int := 3

/-- Constants of the Linux headers the program includes. -/
def ARPHRD_ETHER : Nat := 1
def ETH_P_IP : Nat := 0x0800
def ETH_P_ARP : Nat := 0x0806
def ETHER_ADDR_LEN : Nat := 6
def ETH_ALEN : Nat := 6
def ARPOP_REQUEST : Nat := 1
def ARPOP_REPLY : Nat := 2
def sizeof_in_addr_t : Nat := 4
def AF_PACKET : Nat := 17
def EAGAIN : Int := 11
def EWOULDBLOCK : Int := 11

/-- The function `htons`: host to network byte order on a 16-bit value. -/
def htons (big_endian : Bool) (x : Nat) : Nat :=
  if big_endian then x % 65536 else (x % 256) * 256 + (x / 256) % 256

/-- The two bytes a 16-bit field occupies in memory, lowest address first. -/
def mem16 (big_endian : Bool) (v : U16) : List Octet :=
  if big_endian then [Fin.ofNat (v.val / 256), Fin.ofNat (v.val % 256)]
  else [Fin.ofNat (v.val % 256), Fin.ofNat (v.val / 256)]

/-- The number a 16-bit field carries on the wire: its two bytes in memory
read most significant byte first. -/
def wire16 (big_endian : Bool) (v : U16) : Nat :=
  if big_endian then v.val else (v.val % 256) * 256 + v.val / 256

/-- The function `memcmp` on the first `n` bytes of two arrays: zero when they
agree, otherwise the difference of the first two bytes that differ. Reading
past the end of an array does not occur for the calls of the program. -/
def memcmp : List Octet → List Octet → Nat → Int
  | _, _, 0 => 0
  | a :: as, b :: bs, n + 1 =>
      if a = b then memcmp as bs n else (a.val : Int) - (b.val : Int)
  | _, _, _ + 1 => 0

/-- The function `memset`: `n` bytes, each the value `c` converted to
`unsigned char`. -/
def memset (c : Int) (n : Nat) : ByteArr n :=
  ⟨List.replicate n (Fin.ofNat (c % 256).toNat), by simp⟩

/-- The function `memcpy` of `n` bytes into a destination of exactly `n`
bytes: the new content of the destination is the first `n` bytes of `src`. -/
def memcpy {m : Nat} (src : ByteArr m) (n : Nat) (h : n ≤ m) : ByteArr n :=
  ⟨src.val.take n, by simp [src.property, h]⟩

/-- The function `memcpy` of `n` bytes into a longer destination: the first
`n` bytes are replaced, the others kept. -/
def memcpy_head {m k : Nat} (dst : ByteArr m) (src : ByteArr k) (n : Nat)
    (h1 : n ≤ m) (h2 : n ≤ k) : ByteArr m :=
  ⟨src.val.take n ++ dst.val.drop n, by simp [src.property, dst.property]; omega⟩

/-- Element `i` of a C array (every use is within bounds). -/
def ByteArr.idx {n : Nat} (a : ByteArr n) (i : Nat) : Octet := a.val.getD i 0

/-! ## ARP frames -/

/-- The struct `ether_arp` (packed, 28 bytes): the ARP header followed by the
four addresses. -/
structure ether_arp where
  arp_hrd : U16
  arp_pro : U16
  arp_hln : Octet
  arp_pln : Octet
  arp_op : U16
  arp_sha : ByteArr 6
  arp_spa : ByteArr 4
  arp_tha : ByteArr 6
  arp_tpa : ByteArr 4
  deriving DecidableEq

/-- The 28 bytes of a `struct ether_arp` in memory, which is what `sendto`
transmits. -/
def ether_arp.bytes (big_endian : Bool) (p : ether_arp) : List Octet :=
  mem16 big_endian p.arp_hrd ++ mem16 big_endian p.arp_pro
    ++ [p.arp_hln] ++ [p.arp_pln] ++ mem16 big_endian p.arp_op
    ++ p.arp_sha.val ++ p.arp_spa.val ++ p.arp_tha.val ++ p.arp_tpa.val

/-- The function `check_reply` of `arptest.c`; the global `broadcast_addr` is
a parameter. -/
def check_reply (big_endian : Bool) (broadcast_addr : ByteArr 6)
    (req reply : ether_arp) : Int :=
  if reply.arp_hrd.val ≠ htons big_endian ARPHRD_ETHER
      ∨ reply.arp_pro.val ≠ htons big_endian ETH_P_IP
      ∨ reply.arp_hln.val ≠ ETHER_ADDR_LEN
      ∨ reply.arp_pln.val ≠ sizeof_in_addr_t
      ∨ reply.arp_op.val ≠ htons big_endian ARPOP_REPLY then
    ERR_FAIL
  else if memcmp reply.arp_spa.val req.arp_tpa.val 4 = 0
      ∧ (memcmp req.arp_tha.val broadcast_addr.val 6 = 0
          ∨ memcmp reply.arp_sha.val req.arp_tha.val 6 = 0) then
    ERR_SUCCESS
  else
    ERR_FAIL

/-- The value `main` gives the global `broadcast_addr`:
`memset(broadcast_addr.ether_addr_octet, -1, ETH_ALEN)`. -/
def broadcast_addr : ByteArr 6 := memset (-1) ETH_ALEN

/-- The basic shape `check_reply` asks of a reply, in wire terms: Ethernet,
IPv4, address lengths 6 and 4, operation REPLY. -/
def reply_shape (big_endian : Bool) (r : ether_arp) : Prop :=
  wire16 big_endian r.arp_hrd = ARPHRD_ETHER
    ∧ wire16 big_endian r.arp_pro = ETH_P_IP
    ∧ r.arp_hln.val = 6
    ∧ r.arp_pln.val = 4
    ∧ wire16 big_endian r.arp_op = ARPOP_REPLY

instance (big_endian : Bool) (r : ether_arp) : Decidable (reply_shape big_endian r) := by
  unfold reply_shape; infer_instance

/-! ## Printing the answer -/

/-- The conversion `%02X` of `printf` on a non-negative value: its hexadecimal
digits in upper case, padded with zeros on the left to a width of at least 2. -/
def printf_02X (n : Nat) : String :=
  let ds := (Nat.toDigits 16 n).map Char.toUpper
  String.mk (List.replicate (2 - ds.length) '0' ++ ds)

/-- The call `printf("%02X:%02X:%02X:%02X:%02X:%02X\n", response.arp_sha[0], ...,
response.arp_sha[5])` of `main`: the text it appends to standard output. -/
def printf_sha (sha : ByteArr 6) : String :=
  printf_02X (sha.idx 0).val ++ ":" ++ printf_02X (sha.idx 1).val ++ ":"
    ++ printf_02X (sha.idx 2).val ++ ":" ++ printf_02X (sha.idx 3).val ++ ":"
    ++ printf_02X (sha.idx 4).val ++ ":" ++ printf_02X (sha.idx 5).val ++ "\n"

/-- An upper-case hexadecimal digit, read off the table of digits. -/
def upper_hex_digit (d : Nat) : Char := "0123456789ABCDEF".toList.getD d '?'

/-- A byte as exactly two upper-case hexadecimal digits. -/
def two_hex (b : Octet) : String :=
  String.mk [upper_hex_digit (b.val / 16), upper_hex_digit (b.val % 16)]

/-- Colon-hex form of a hardware address: its bytes as two upper-case
hexadecimal digits each, separated by colons, ended by a newline. -/
def colon_hex_line (mac : List Octet) : String :=
  String.intercalate ":" (mac.map two_hex) ++ "\n"

/-! ## Interface resolution (`find_device.c`) -/

/-- Interface flags of `net/if.h`. -/
def IFF_UP : Nat := 0x1
def IFF_LOOPBACK : Nat := 0x8
def IFF_NOARP : Nat := 0x80

/-- What the program reads of a `struct sockaddr`: the family, and, through
the cast to `struct sockaddr_ll` it applies to a packet address, the length of
the hardware address. -/
structure sockaddr where
  sa_family : Nat
  sll_halen : Nat
  deriving DecidableEq

/-- One entry of the list `getifaddrs` returns; a pointer that may be `NULL`
is an `Option`. -/
structure ifaddrs where
  ifa_name : Option String
  ifa_flags : Nat
  ifa_addr : Option sockaddr
  ifa_broadaddr : Option sockaddr
  deriving DecidableEq

/-- The struct `device` of `find_device.h` (without `USE_SYSFS`). -/
structure device where
  name : Option String
  ifindex : Int
  ifa : Option ifaddrs
  deriving DecidableEq

/-- How a call ends: it returns a code, the process exits with a status, or
the call runs into undefined behaviour (a null pointer handed to a library
function that reads it). The state carried is the one reached at that point. -/
inductive Outcome (σ : Type) where
  | returned (rc : Int) (st : σ)
  | exited (status : Int) (st : σ)
  | undefined (st : σ)
  deriving DecidableEq

/-- The conversion of an `unsigned int` to `int` on assignment (32 bits, two's
complement): values from `2^31` up become negative. -/
def int_of_unsigned (u : Nat) : Int :=
  if u % 4294967296 < 2147483648 then ((u % 4294967296 : Nat) : Int)
  else ((u % 4294967296 : Nat) : Int) - 4294967296

/-- State of interface resolution: the device being filled in and the text
written to standard output so far. -/
structure FdState where
  dev : device
  stdout : String
  deriving DecidableEq

/-- The text `printf` gives for a `%s` argument (glibc prints `(null)` for a
null pointer). -/
def printf_s (s : Option String) : String := s.getD "(null)"

/-- The function `check_ifflags` of `find_device.c`. The state is the text on
standard output. -/
def check_ifflags (ifflags : Nat) (fatal : Bool) (devname : Option String)
    (out : String) : Outcome String :=
  if ifflags &&& IFF_UP = 0 then
    if fatal then
      Outcome.exited 2 (out ++ "Interface \"" ++ printf_s devname ++ "\" is down\n")
    else
      Outcome.returned (-1) out
  else if ifflags &&& (IFF_NOARP ||| IFF_LOOPBACK) ≠ 0 then
    if fatal then
      Outcome.exited 2 (out ++ "Interface \"" ++ printf_s devname ++ "\" is not ARPable\n")
    else
      Outcome.returned (-1) out
  else
    Outcome.returned 0 out

/-- The function `strcmp`, as far as the program uses it: zero exactly for
equal strings. -/
def strcmp (a b : String) : Int := if a = b then 0 else 1

/-- How the `for` loop of `find_device_by_ifaddrs` ends: the loop is left
(end of the list, or `break`) with the given `dev->ifa` and `count`, or the
process exits, or the behaviour is undefined; each with `dev->ifa` and
standard output at that point. -/
inductive LoopEnd where
  | left (sel : Option ifaddrs) (count : Nat) (out : String)
  | exited (status : Int) (sel : Option ifaddrs) (out : String)
  | undefined (sel : Option ifaddrs) (out : String)
  deriving DecidableEq

/-- The `for` loop of `find_device_by_ifaddrs` over the entries still to
visit, with the current `dev->ifa`, `count` and standard output. -/
def ifaddrs_loop (name : Option String) :
    List ifaddrs → Option ifaddrs → Nat → String → LoopEnd
  | [], sel, count, out => LoopEnd.left sel count out
  | ifa :: rest, sel, count, out =>
    match ifa.ifa_addr with
    | none => ifaddrs_loop name rest sel count out
    | some sa =>
      if sa.sa_family ≠ AF_PACKET then ifaddrs_loop name rest sel count out
      else if name.isSome ∧ ifa.ifa_name.isSome
          ∧ strcmp (ifa.ifa_name.getD "") (name.getD "") ≠ 0 then
        ifaddrs_loop name rest sel count out
      else
        match check_ifflags ifa.ifa_flags name.isSome name out with
        | Outcome.exited status out1 => LoopEnd.exited status sel out1
        | Outcome.undefined out1 => LoopEnd.undefined sel out1
        | Outcome.returned rc out1 =>
          if rc < 0 then ifaddrs_loop name rest sel count out1
          else if sa.sll_halen = 0 then ifaddrs_loop name rest sel count out1
          else if ifa.ifa_broadaddr = none then ifaddrs_loop name rest sel count out1
          else if count ≠ 0 then LoopEnd.left (some ifa) (count + 1) out1
          else ifaddrs_loop name rest (some ifa) (count + 1) out1

/-- The function `find_device_by_ifaddrs` (built with `getifaddrs` support).
The environment gives the result of `getifaddrs` (`none` when it fails) and
the function `if_nametoindex` on a name (an `unsigned int`, zero when it
fails). The result of `if_nametoindex` is converted to `int` when it is
stored in `dev->ifindex`; calling it with a null `ifa_name` is undefined
behaviour. -/
def find_device_by_ifaddrs (getifaddrs : Option (List ifaddrs))
    (if_nametoindex : String → Nat) (st : FdState) : Outcome FdState :=
  match getifaddrs with
  | none => Outcome.returned (-1) st
  | some ifa0 =>
    match ifaddrs_loop st.dev.name ifa0 st.dev.ifa 0 st.stdout with
    | LoopEnd.exited status sel out => Outcome.exited status ⟨{ st.dev with ifa := sel }, out⟩
    | LoopEnd.undefined sel out => Outcome.undefined ⟨{ st.dev with ifa := sel }, out⟩
    | LoopEnd.left sel count out =>
      match sel with
      | some ifa =>
        if count = 1 then
          match ifa.ifa_name with
          | none => Outcome.undefined ⟨{ st.dev with ifa := sel }, out⟩
          | some ifa_name =>
            let ifindex : Int := int_of_unsigned (if_nametoindex ifa_name)
            if ifindex = 0 then
              Outcome.returned (-1) ⟨{ st.dev with ifa := sel, ifindex := ifindex }, out⟩
            else
              Outcome.returned 0 ⟨{ st.dev with ifa := sel, ifindex := ifindex }, out⟩
        else Outcome.returned 1 ⟨{ st.dev with ifa := sel }, out⟩
      | none => Outcome.returned 1 ⟨{ st.dev with ifa := sel }, out⟩

/-- The function `find_device`: the three strategies in order, the next one
only after a negative return. -/
def find_device {σ : Type} (by_ifaddrs by_sysfs by_ioctl : σ → Outcome σ)
    (st : σ) : Outcome σ :=
  match by_ifaddrs st with
  | Outcome.exited status st1 => Outcome.exited status st1
  | Outcome.undefined st1 => Outcome.undefined st1
  | Outcome.returned rc st1 =>
    if rc ≥ 0 then Outcome.returned rc st1
    else
      match by_sysfs st1 with
      | Outcome.exited status st2 => Outcome.exited status st2
      | Outcome.undefined st2 => Outcome.undefined st2
      | Outcome.returned rc2 st2 =>
        if rc2 ≥ 0 then Outcome.returned rc2 st2
        else by_ioctl st2

/-- Names of the three strategies. -/
inductive Strategy where
  | ifaddrs
  | sysfs
  | ioctl
  deriving DecidableEq

/-- A strategy that records that it ran and returns the given code. -/
def recording (tag : Strategy) (rc : Int) (log : List Strategy) : Outcome (List Strategy) :=
  Outcome.returned rc (log ++ [tag])

/-- A stand-in for a later strategy (sysfs, ioctl): it returns the given code
and sets the index of the device to 7. -/
def later_strategy (rc : Int) (st : FdState) : Outcome FdState :=
  Outcome.returned rc { st with dev := { st.dev with ifindex := 7 } }

/-- An entry reaches the flag check of `find_device_by_ifaddrs`: it has a
packet address and is not skipped for its name. -/
def reaches_check (name : Option String) (ifa : ifaddrs) : Bool :=
  match ifa.ifa_addr with
  | none => false
  | some sa =>
    sa.sa_family = AF_PACKET
      ∧ ¬ (name.isSome ∧ ifa.ifa_name.isSome ∧ ifa.ifa_name ≠ name)

/-- Flags of an interface that is up, not loopback and ARP-capable. -/
def flags_ok (ifflags : Nat) : Bool :=
  ifflags &&& IFF_UP ≠ 0 ∧ ifflags &&& IFF_LOOPBACK = 0 ∧ ifflags &&& IFF_NOARP = 0

/-- An entry has a link-layer address of non-zero length. -/
def has_ll_addr (ifa : ifaddrs) : Bool :=
  match ifa.ifa_addr with
  | none => false
  | some sa => sa.sa_family = AF_PACKET ∧ sa.sll_halen ≠ 0

/-- Eligibility as the claim words it: up, not loopback, ARP-capable, with a
link-layer address of non-zero length. -/
def eligible_as_claimed (ifa : ifaddrs) : Bool :=
  flags_ok ifa.ifa_flags && has_ll_addr ifa

/-- Eligibility as `find_device_by_ifaddrs` tests it: the above, a broadcast
address, and a name that is not skipped. -/
def eligible (name : Option String) (ifa : ifaddrs) : Bool :=
  reaches_check name ifa && flags_ok ifa.ifa_flags && has_ll_addr ifa
    && ifa.ifa_broadaddr.isSome

/-- No entry that reaches the flag check makes `check_ifflags` exit: either no
name was supplied or the flags of each such entry are in order. -/
def loop_safe (name : Option String) (l : List ifaddrs) : Prop :=
  ∀ x ∈ l, reaches_check name x = true → name.isSome = true → flags_ok x.ifa_flags = true

/-- The line `check_ifflags` prints before it exits: the interface is down
when the flag `IFF_UP` is clear, not ARPable otherwise. -/
def flag_message (devname : Option String) (ifflags : Nat) : String :=
  if ifflags &&& IFF_UP = 0 then "Interface \"" ++ printf_s devname ++ "\" is down\n"
  else "Interface \"" ++ printf_s devname ++ "\" is not ARPable\n"

/-! ## The probe (`main` of `arptest.c`) -/

/-- The struct `sockaddr_ll`. -/
structure sockaddr_ll where
  sll_family : Nat
  sll_protocol : U16
  sll_ifindex : Int
  sll_hatype : Nat
  sll_pkttype : Nat
  sll_halen : Nat
  sll_addr : ByteArr 8
  deriving DecidableEq

/-- System calls `main` makes on its socket, with what it passes. -/
inductive Syscall where
  | socket (ret : Int)
  | setsockopt (fd : Int)
  | bind (fd : Int) (addr : sockaddr_ll)
  | getsockname (fd : Int)
  | sendto (fd : Int) (buf : List Octet) (dest : sockaddr_ll)
  | recvfrom (fd : Int)
  | close (fd : Int)
  deriving DecidableEq

/-- One call of `recvfrom` as `main` sees it: the value returned, `errno`
when it is tested, and the content of the buffer `response` after the call. -/
structure RecvEvent where
  recv_ret : Int
  errno : Int
  response : ether_arp
  deriving DecidableEq

/-- Answers of the system to the calls of `main`. -/
structure SysEnv where
  socket_ret : Int
  setsockopt_ret : Int
  bind_ret : Int
  getsockname_ret : Int
  me : sockaddr_ll
  sendto_ret : Int
  recv : List RecvEvent

/-- A run of `main`: its exit status (`none` when there is none: `main` is
still waiting in `recvfrom` when the recorded answers run out, or interface
resolution ran into undefined behaviour), standard output, and the system
calls made on the socket, in order. -/
structure Exit where
  status : Option Int
  stdout : String
  trace : List Syscall
  deriving DecidableEq

/-- The ARP request `main` constructs. -/
def arp_request (big_endian : Bool) (me : sockaddr_ll) (macaddr : ByteArr 6)
    (ipaddr : ByteArr 4) : ether_arp :=
  { arp_hrd := Fin.ofNat (htons big_endian ARPHRD_ETHER)
    arp_pro := Fin.ofNat (htons big_endian ETH_P_IP)
    arp_hln := Fin.ofNat ETHER_ADDR_LEN
    arp_pln := Fin.ofNat sizeof_in_addr_t
    arp_op := Fin.ofNat (htons big_endian ARPOP_REQUEST)
    arp_sha := memcpy me.sll_addr 6 (by decide)
    arp_spa := memset 0 4
    arp_tha := memcpy macaddr 6 (by decide)
    arp_tpa := memcpy ipaddr 4 (by decide) }

/-- The `do ... while (check_reply(&req, &response))` loop of `main` over the
answers of `recvfrom` still to come: the value of `ret` and the buffer
`response` at loop exit (`none` when the answers run out while the loop is
still receiving), and the trace. -/
def main_recv_loop (big_endian : Bool) (req : ether_arp) (sock : Int) :
    List RecvEvent → List Syscall → Option (Int × ether_arp) × List Syscall
  | [], tr => (none, tr)
  | ev :: rest, tr =>
    if ev.recv_ret ≤ 0 then
      if ev.errno = EAGAIN ∨ ev.errno = EWOULDBLOCK then
        (some (ERR_FAIL, ev.response), tr ++ [Syscall.recvfrom sock])
      else
        (some (ERR_SYS, ev.response), tr ++ [Syscall.recvfrom sock])
    else if check_reply big_endian broadcast_addr req ev.response ≠ 0 then
      main_recv_loop big_endian req sock rest (tr ++ [Syscall.recvfrom sock])
    else
      (some (ERR_SUCCESS, ev.response), tr ++ [Syscall.recvfrom sock])

/-- The part of `main` from `socket` on: socket set-up, the request, the
receive loop, the answer. -/
def main_probe (big_endian : Bool) (iface : device) (ipaddr : ByteArr 4)
    (macaddr : ByteArr 6) (env : SysEnv) (out : String) : Exit :=
  let sock := env.socket_ret
  let t0 := [Syscall.socket sock]
  if sock = -1 then ⟨some ERR_SYS, out, t0⟩
  else
    let t1 := t0 ++ [Syscall.setsockopt sock]
    if env.setsockopt_ret < 0 then ⟨some ERR_SYS, out, t1⟩
    else
      let addr : sockaddr_ll :=
        { sll_family := AF_PACKET
          sll_protocol := Fin.ofNat (htons big_endian ETH_P_ARP)
          sll_ifindex := iface.ifindex
          sll_hatype := 0
          sll_pkttype := 0
          sll_halen := 0
          sll_addr := memset 0 8 }
      let t2 := t1 ++ [Syscall.bind sock addr]
      if env.bind_ret = -1 then ⟨some ERR_SYS, out, t2⟩
      else
        let t3 := t2 ++ [Syscall.getsockname sock]
        if env.getsockname_ret = -1 then ⟨some ERR_SYS, out, t3⟩
        else
          let me := env.me
          if me.sll_halen = 0 then ⟨some ERR_SYS, out, t3⟩
          else
            let addr1 : sockaddr_ll :=
              { addr with
                sll_halen := ETHER_ADDR_LEN
                sll_addr := memcpy_head addr.sll_addr macaddr ETH_ALEN (by decide) (by decide) }
            let req := arp_request big_endian me macaddr ipaddr
            let t4 := t3 ++ [Syscall.sendto sock (req.bytes big_endian) addr1]
            if env.sendto_ret = -1 then ⟨some ERR_SYS, out, t4⟩
            else
              match main_recv_loop big_endian req sock env.recv t4 with
              | (none, t5) => ⟨none, out, t5⟩
              | (some (ret, response), t5) =>
                let out1 := if ret = ERR_SUCCESS then out ++ printf_sha response.arp_sha else out
                ⟨some ret, out1, t5 ++ [Syscall.close sock]⟩

/-- The local `macaddr` of `main` once the options are read: initialised to
`broadcast_addr`, replaced by the address of option `-m` when it is given. -/
def macaddr_after_options (macaddr_opt : Option (ByteArr 6)) : ByteArr 6 :=
  match macaddr_opt with
  | none => broadcast_addr
  | some m => m

/-- The function `main` after its options and arguments are parsed without
error: `name` and `ipaddr` are the two arguments, `macaddr_opt` the address of
option `-m` when given (the timeout of option `-w` only reaches `setsockopt`
and is left out). `find_dev` stands for `find_device` in its environment,
`iface0` for the content of the local `iface` before it is filled in. Text
written to standard error is not recorded. -/
def main (big_endian : Bool) (find_dev : FdState → Outcome FdState)
    (iface0 : device) (name : String) (ipaddr : ByteArr 4)
    (macaddr_opt : Option (ByteArr 6)) (env : SysEnv) : Exit :=
  let macaddr := macaddr_after_options macaddr_opt
  let iface : device := { iface0 with name := some name }
  match find_dev ⟨iface, ""⟩ with
  | Outcome.exited status st => ⟨some status, st.stdout, []⟩
  | Outcome.undefined st => ⟨none, st.stdout, []⟩
  | Outcome.returned rc st =>
    if rc ≠ 0 then ⟨some ERR_SYS, st.stdout, []⟩
    else main_probe big_endian st.dev ipaddr macaddr env st.stdout

/-- Every set-up step of `main` on the socket succeeds. -/
def setup_ok (env : SysEnv) : Prop :=
  env.socket_ret ≠ -1 ∧ ¬ env.setsockopt_ret < 0 ∧ env.bind_ret ≠ -1
    ∧ env.getsockname_ret ≠ -1 ∧ env.me.sll_halen ≠ 0 ∧ env.sendto_ret ≠ -1

instance (env : SysEnv) : Decidable (setup_ok env) := by
  unfold setup_ok; infer_instance

/-- The address `main` binds the socket to. -/
def bind_addr (big_endian : Bool) (iface : device) : sockaddr_ll :=
  { sll_family := AF_PACKET
    sll_protocol := Fin.ofNat (htons big_endian ETH_P_ARP)
    sll_ifindex := iface.ifindex
    sll_hatype := 0
    sll_pkttype := 0
    sll_halen := 0
    sll_addr := memset 0 8 }

/-- The destination address `main` passes to `sendto`. -/
def sendto_addr (big_endian : Bool) (iface : device) (macaddr : ByteArr 6) : sockaddr_ll :=
  { bind_addr big_endian iface with
    sll_halen := ETHER_ADDR_LEN
    sll_addr := memcpy_head (bind_addr big_endian iface).sll_addr macaddr ETH_ALEN
      (by decide) (by decide) }

/-- The system calls of `main` up to and including `sendto`, when each of them
succeeds. -/
def setup_trace (big_endian : Bool) (iface : device) (ipaddr : ByteArr 4)
    (macaddr : ByteArr 6) (env : SysEnv) : List Syscall :=
  [Syscall.socket env.socket_ret, Syscall.setsockopt env.socket_ret,
    Syscall.bind env.socket_ret (bind_addr big_endian iface),
    Syscall.getsockname env.socket_ret,
    Syscall.sendto env.socket_ret
      ((arp_request big_endian env.me macaddr ipaddr).bytes big_endian)
      (sendto_addr big_endian iface macaddr)]

/-- A call of `recvfrom` that delivers a frame `check_reply` rejects. -/
def rejected_frame (big_endian : Bool) (req : ether_arp) (ev : RecvEvent) : Prop :=
  0 < ev.recv_ret ∧ check_reply big_endian broadcast_addr req ev.response ≠ 0

instance (big_endian : Bool) (req : ether_arp) (ev : RecvEvent) :
    Decidable (rejected_frame big_endian req ev) := by
  unfold rejected_frame; infer_instance

/-! ## Concrete inputs -/

/-- The address of `getsockname` for an interface 02:00:00:00:00:01 of index 2. -/
def sample_me : sockaddr_ll :=
  { sll_family := 17, sll_protocol := 0, sll_ifindex := 2, sll_hatype := 1,
    sll_pkttype := 0, sll_halen := 6, sll_addr := ⟨[2, 0, 0, 0, 0, 1, 0, 0], rfl⟩ }

/-- The address 10.0.0.5 as `inet_aton` stores it. -/
def sample_ip : ByteArr 4 := ⟨[10, 0, 0, 5], rfl⟩

/-- The hardware address AA:BB:CC:DD:EE:FF. -/
def sample_mac : ByteArr 6 := ⟨[0xAA, 0xBB, 0xCC, 0xDD, 0xEE, 0xFF], rfl⟩

/-- The hardware address 02:00:00:00:00:09. -/
def other_mac : ByteArr 6 := ⟨[2, 0, 0, 0, 0, 9], rfl⟩

/-- A well-formed ARP reply from 10.0.0.5 at AA:BB:CC:DD:EE:FF, as it lies in
the memory of a little-endian host. -/
def sample_reply : ether_arp :=
  { arp_hrd := 0x0100, arp_pro := 0x0008, arp_hln := 6, arp_pln := 4, arp_op := 0x0200,
    arp_sha := sample_mac, arp_spa := sample_ip,
    arp_tha := ⟨[2, 0, 0, 0, 0, 1], rfl⟩, arp_tpa := ⟨[0, 0, 0, 0], rfl⟩ }

/-- The same reply with hardware type 6 (IEEE 802) in place of Ethernet. -/
def ieee802_reply : ether_arp := { sample_reply with arp_hrd := 0x0600 }

/-- The same reply sent from 10.0.0.9. -/
def stranger_reply : ether_arp := { sample_reply with arp_spa := ⟨[10, 0, 0, 9], rfl⟩ }

/-- The same reply sent from hardware address 02:00:00:00:00:09. -/
def other_reply : ether_arp := { sample_reply with arp_sha := other_mac }

/-- A resolved interface `eth0` of index 2. -/
def sample_iface : device := { name := some "eth0", ifindex := 2, ifa := none }

/-- An environment in which every call succeeds and `recvfrom` answers with
the given events. -/
def sample_env (recv : List RecvEvent) : SysEnv :=
  { socket_ret := 3, setsockopt_ret := 0, bind_ret := 0, getsockname_ret := 0,
    me := sample_me, sendto_ret := 28, recv := recv }

/-- An environment in which the socket is opened and bound and `sendto` then
fails (the interface went down, say). -/
def sendto_fails_env : SysEnv :=
  { socket_ret := 3, setsockopt_ret := 0, bind_ret := 0, getsockname_ret := 0,
    me := sample_me, sendto_ret := -1, recv := [] }

/-- A frame delivered by `recvfrom`. -/
def frame_event (r : ether_arp) : RecvEvent := { recv_ret := 28, errno := 0, response := r }

/-- A call of `recvfrom` that times out. -/
def timeout_event : RecvEvent := { recv_ret := -1, errno := EAGAIN, response := stranger_reply }

/-- A call of `recvfrom` that fails with `ENETDOWN` (100). -/
def netdown_event : RecvEvent := { recv_ret := -1, errno := 100, response := stranger_reply }

/-- A packet address with a hardware address of six bytes. -/
def packet_addr : sockaddr := { sa_family := 17, sll_halen := 6 }

/-- An Ethernet interface that is up and running, with broadcast and
multicast (flags 0x1043). -/
def eth0_entry : ifaddrs :=
  { ifa_name := some "eth0", ifa_flags := 0x1043, ifa_addr := some packet_addr,
    ifa_broadaddr := some packet_addr }

/-- A second Ethernet interface, up as well. -/
def eth1_entry : ifaddrs := { eth0_entry with ifa_name := some "eth1" }

/-- The loopback interface (flags 0x49: up, loopback, running). -/
def lo_entry : ifaddrs :=
  { ifa_name := some "lo", ifa_flags := 0x49, ifa_addr := some packet_addr,
    ifa_broadaddr := some packet_addr }

/-- An interface that is up and ARP-capable with a hardware address, but
without a broadcast address. -/
def nobroadcast_entry : ifaddrs :=
  { ifa_name := some "ptp0", ifa_flags := 0x1043, ifa_addr := some packet_addr,
    ifa_broadaddr := none }

/-- An eligible entry whose `ifa_name` is a null pointer. -/
def anon_entry : ifaddrs := { eth0_entry with ifa_name := none }

/-- The interface `eth0` administratively down (flags 0x1002). -/
def eth0_down_entry : ifaddrs := { eth0_entry with ifa_flags := 0x1002 }

/-- The function `if_nametoindex` of a system with `eth0` at index 2 and
`eth1` at index 3. -/
def sample_nametoindex (name : String) : Nat :=
  if name = "eth0" then 2 else if name = "eth1" then 3
  else if name = "ptp0" then 4 else 0

/-- The state in which `main` calls `find_device` for the given name. -/
def fd_start (name : Option String) : FdState :=
  { dev := { name := name, ifindex := 0, ifa := none }, stdout := "" }

/-! ## Lemmas on bytes -/

theorem memcmp_eq_zero_iff (n : Nat) :
    ∀ (a b : List Octet), a.length = n → b.length = n →
      (memcmp a b n = 0 ↔ a = b) := by
  induction n with
  | zero =>
    intro a b ha hb
    have ha0 : a = [] := List.length_eq_zero.mp ha
    have hb0 : b = [] := List.length_eq_zero.mp hb
    subst ha0; subst hb0
    simp [memcmp]
  | succ n ih =>
    intro a b ha hb
    cases a with
    | nil => simp at ha
    | cons x xs =>
      cases b with
      | nil => simp at hb
      | cons y ys =>
        simp only [List.length_cons, Nat.add_right_cancel_iff] at ha hb
        by_cases hxy : x = y
        · subst hxy
          simp [memcmp, ih xs ys ha hb]
        · have hne : (x.val : Int) - (y.val : Int) ≠ 0 := by
            intro h
            apply hxy
            apply Fin.ext
            omega
          simp [memcmp, hxy, hne]

theorem memcmp_arr_eq_zero_iff {n : Nat} (a b : ByteArr n) :
    memcmp a.val b.val n = 0 ↔ a = b := by
  rw [memcmp_eq_zero_iff n a.val b.val a.property b.property]
  exact Subtype.ext_iff.symm

theorem htons_eq_iff_wire16 (big_endian : Bool) (v : U16) (c : Nat) (hc : c < 65536) :
    v.val = htons big_endian c ↔ wire16 big_endian v = c := by
  have hv := v.isLt
  unfold htons wire16
  cases big_endian
  · simp only [Bool.false_eq_true, if_false]
    have h1 : c / 256 < 256 := by omega
    have h2 : v.val / 256 < 256 := by omega
    have h3 : c / 256 % 256 = c / 256 := Nat.mod_eq_of_lt h1
    rw [h3]
    constructor
    · intro h
      have h4 : v.val / 256 = c % 256 := by omega
      have h5 : v.val % 256 = c / 256 := by omega
      rw [h4, h5]; omega
    · intro h
      have h4 : c / 256 = v.val % 256 := by omega
      have h5 : c % 256 = v.val / 256 := by omega
      rw [h4, h5]; omega
  · simp only [if_true]
    rw [Nat.mod_eq_of_lt hc]

theorem check_reply_shape_iff (big_endian : Bool) (r : ether_arp) :
    ¬ (r.arp_hrd.val ≠ htons big_endian ARPHRD_ETHER
      ∨ r.arp_pro.val ≠ htons big_endian ETH_P_IP
      ∨ r.arp_hln.val ≠ ETHER_ADDR_LEN
      ∨ r.arp_pln.val ≠ sizeof_in_addr_t
      ∨ r.arp_op.val ≠ htons big_endian ARPOP_REPLY) ↔ reply_shape big_endian r := by
  unfold reply_shape
  rw [← htons_eq_iff_wire16 big_endian r.arp_hrd ARPHRD_ETHER (by decide),
    ← htons_eq_iff_wire16 big_endian r.arp_pro ETH_P_IP (by decide),
    ← htons_eq_iff_wire16 big_endian r.arp_op ARPOP_REPLY (by decide)]
  simp only [ETHER_ADDR_LEN, sizeof_in_addr_t]
  tauto

/-- What `check_reply` computes, for any value of the global. -/
theorem check_reply_eq_zero_iff (big_endian : Bool) (bc : ByteArr 6) (req r : ether_arp) :
    check_reply big_endian bc req r = 0 ↔
      (reply_shape big_endian r ∧ r.arp_spa = req.arp_tpa
        ∧ (req.arp_tha = bc ∨ r.arp_sha = req.arp_tha)) := by
  unfold check_reply
  by_cases hs : reply_shape big_endian r
  · have hs1 := (check_reply_shape_iff big_endian r).mpr hs
    rw [if_neg hs1]
    simp only [memcmp_arr_eq_zero_iff]
    by_cases hc : r.arp_spa = req.arp_tpa ∧ (req.arp_tha = bc ∨ r.arp_sha = req.arp_tha)
    · rw [if_pos hc]; simp [ERR_SUCCESS, hs, hc]
    · rw [if_neg hc]; simp only [ERR_FAIL]; constructor
      · intro h; omega
      · intro h; exact absurd h.2 hc
  · have hs1 : (r.arp_hrd.val ≠ htons big_endian ARPHRD_ETHER
      ∨ r.arp_pro.val ≠ htons big_endian ETH_P_IP
      ∨ r.arp_hln.val ≠ ETHER_ADDR_LEN
      ∨ r.arp_pln.val ≠ sizeof_in_addr_t
      ∨ r.arp_op.val ≠ htons big_endian ARPOP_REPLY) := by
      by_contra hcon
      exact hs ((check_reply_shape_iff big_endian r).mp hcon)
    rw [if_pos hs1]; simp only [ERR_FAIL]; constructor
    · intro h; omega
    · intro h; exact absurd h.1 hs

/-- The function `check_reply` returns `ERR_SUCCESS` or `ERR_FAIL`. -/
theorem check_reply_zero_or_one (big_endian : Bool) (bc : ByteArr 6) (req r : ether_arp) :
    check_reply big_endian bc req r = 0 ∨ check_reply big_endian bc req r = 1 := by
  unfold check_reply
  split
  · right; rfl
  · split
    · left; rfl
    · right; rfl

/-! ## Lemmas on the probe -/

set_option maxRecDepth 1000000 in
theorem printf_02X_octet : ∀ b : Octet, printf_02X b.val = two_hex b := by decide

theorem printf_sha_eq_colon_hex_line (sha : ByteArr 6) :
    printf_sha sha = colon_hex_line sha.val := by
  obtain ⟨l, hl⟩ := sha
  match l, hl with
  | [a, b, c, d, e, f], _ =>
    simp only [printf_sha, ByteArr.idx, colon_hex_line, printf_02X_octet]
    rfl

theorem recv_loop_skip (big_endian : Bool) (req : ether_arp) (sock : Int)
    (rest : List RecvEvent) :
    ∀ (pre : List RecvEvent) (tr : List Syscall),
      (∀ e ∈ pre, rejected_frame big_endian req e) →
      main_recv_loop big_endian req sock (pre ++ rest) tr
        = main_recv_loop big_endian req sock rest
            (tr ++ List.replicate pre.length (Syscall.recvfrom sock)) := by
  intro pre
  induction pre with
  | nil => intro tr _; simp
  | cons e pre ih =>
    intro tr h
    have he := h e (List.mem_cons_self e pre)
    have hpre : ∀ x ∈ pre, rejected_frame big_endian req x :=
      fun x hx => h x (List.mem_cons_of_mem e hx)
    have h1 : ¬ e.recv_ret ≤ 0 := by have := he.1; omega
    have hstep : main_recv_loop big_endian req sock (e :: (pre ++ rest)) tr
        = main_recv_loop big_endian req sock (pre ++ rest) (tr ++ [Syscall.recvfrom sock]) := by
      simp only [main_recv_loop, if_neg h1, if_pos he.2]
    rw [List.cons_append, hstep, ih _ hpre]
    simp [List.replicate_succ, List.append_assoc]

theorem main_probe_of_setup_ok (big_endian : Bool) (iface : device) (ipaddr : ByteArr 4)
    (macaddr : ByteArr 6) (env : SysEnv) (out : String) (h : setup_ok env) :
    main_probe big_endian iface ipaddr macaddr env out =
      match main_recv_loop big_endian (arp_request big_endian env.me macaddr ipaddr)
          env.socket_ret env.recv (setup_trace big_endian iface ipaddr macaddr env) with
      | (none, t5) => ⟨none, out, t5⟩
      | (some (ret, response), t5) =>
        ⟨some ret, if ret = ERR_SUCCESS then out ++ printf_sha response.arp_sha else out,
          t5 ++ [Syscall.close env.socket_ret]⟩ := by
  obtain ⟨h1, h2, h3, h4, h5, h6⟩ := h
  simp only [main_probe, setup_trace, bind_addr, sendto_addr, if_neg h1, if_neg h2, if_neg h3,
    if_neg h4, if_neg h5, if_neg h6, List.cons_append, List.nil_append]

theorem recv_loop_result (big_endian : Bool) (req : ether_arp) (sock : Int) :
    ∀ (evs : List RecvEvent) (tr tr1 : List Syscall) (ret : Int) (resp : ether_arp),
      main_recv_loop big_endian req sock evs tr = (some (ret, resp), tr1) →
      (ret = ERR_SUCCESS ∨ ret = ERR_FAIL ∨ ret = ERR_SYS)
        ∧ (ret = ERR_SUCCESS → check_reply big_endian broadcast_addr req resp = 0
            ∧ ∃ ev ∈ evs, 0 < ev.recv_ret ∧ ev.response = resp) := by
  intro evs
  induction evs with
  | nil => intro tr tr1 ret resp h; simp [main_recv_loop] at h
  | cons e evs ih =>
    intro tr tr1 ret resp h
    simp only [main_recv_loop] at h
    by_cases h1 : e.recv_ret ≤ 0
    · rw [if_pos h1] at h
      by_cases h2 : e.errno = EAGAIN ∨ e.errno = EWOULDBLOCK
      · rw [if_pos h2] at h
        simp only [Prod.mk.injEq, Option.some.injEq] at h
        obtain ⟨⟨hr, _⟩, _⟩ := h
        subst hr
        exact ⟨Or.inr (Or.inl rfl), fun hc => absurd hc (by decide)⟩
      · rw [if_neg h2] at h
        simp only [Prod.mk.injEq, Option.some.injEq] at h
        obtain ⟨⟨hr, _⟩, _⟩ := h
        subst hr
        exact ⟨Or.inr (Or.inr rfl), fun hc => absurd hc (by decide)⟩
    · rw [if_neg h1] at h
      by_cases h3 : check_reply big_endian broadcast_addr req e.response ≠ 0
      · rw [if_pos h3] at h
        obtain ⟨ha, hb⟩ := ih _ _ _ _ h
        refine ⟨ha, fun hc => ?_⟩
        obtain ⟨hb1, ev, hev, hev2⟩ := hb hc
        exact ⟨hb1, ev, List.mem_cons_of_mem e hev, hev2⟩
      · rw [if_neg h3] at h
        simp only [Prod.mk.injEq, Option.some.injEq] at h
        obtain ⟨⟨hr, hresp⟩, _⟩ := h
        subst hr; subst hresp
        refine ⟨Or.inl rfl, fun _ => ⟨not_not.mp h3, e, List.mem_cons_self e evs, by omega, rfl⟩⟩

theorem memcpy_full {n : Nat} (src : ByteArr n) (h : n ≤ n) : memcpy src n h = src := by
  apply Subtype.ext
  simp [memcpy, List.take_of_length_le, src.property]

theorem arp_request_tha (big_endian : Bool) (me : sockaddr_ll) (macaddr : ByteArr 6)
    (ipaddr : ByteArr 4) : (arp_request big_endian me macaddr ipaddr).arp_tha = macaddr := by
  simp [arp_request, memcpy_full]

theorem arp_request_tpa (big_endian : Bool) (me : sockaddr_ll) (macaddr : ByteArr 6)
    (ipaddr : ByteArr 4) : (arp_request big_endian me macaddr ipaddr).arp_tpa = ipaddr := by
  simp [arp_request, memcpy_full]

theorem recv_loop_trace (big_endian : Bool) (req : ether_arp) (sock : Int) :
    ∀ (evs : List RecvEvent) (tr : List Syscall),
      ∃ k, (main_recv_loop big_endian req sock evs tr).2
        = tr ++ List.replicate k (Syscall.recvfrom sock) := by
  intro evs
  induction evs with
  | nil => intro tr; exact ⟨0, by simp [main_recv_loop]⟩
  | cons e evs ih =>
    intro tr
    simp only [main_recv_loop]
    split
    · split
      · exact ⟨1, by simp⟩
      · exact ⟨1, by simp⟩
    · split
      · obtain ⟨k, hk⟩ := ih (tr ++ [Syscall.recvfrom sock])
        exact ⟨k + 1, by rw [hk]; simp [List.replicate_succ]⟩
      · exact ⟨1, by simp⟩

theorem main_probe_of_not_setup_ok (big_endian : Bool) (iface : device) (ipaddr : ByteArr 4)
    (macaddr : ByteArr 6) (env : SysEnv) (out : String) (h : ¬ setup_ok env) :
    (main_probe big_endian iface ipaddr macaddr env out).status = some ERR_SYS
      ∧ (main_probe big_endian iface ipaddr macaddr env out).stdout = out
      ∧ Syscall.close env.socket_ret ∉ (main_probe big_endian iface ipaddr macaddr env out).trace := by
  unfold setup_ok at h
  unfold main_probe
  by_cases h1 : env.socket_ret = -1
  · simp [h1]
  by_cases h2 : env.setsockopt_ret < 0
  · simp [h1, h2]
  by_cases h3 : env.bind_ret = -1
  · simp [h1, h2, h3]
  by_cases h4 : env.getsockname_ret = -1
  · simp [h1, h2, h3, h4]
  by_cases h5 : env.me.sll_halen = 0
  · simp [h1, h2, h3, h4, h5]
  by_cases h6 : env.sendto_ret = -1
  · simp [h1, h2, h3, h4, h5, h6]
  · exact absurd ⟨h1, h2, h3, h4, h5, h6⟩ h

/-- The deciding event of the receive loop: after frames that are all
rejected, the next answer of `recvfrom` fixes the result. -/
theorem main_probe_decided (big_endian : Bool) (iface : device) (ipaddr : ByteArr 4)
    (macaddr : ByteArr 6) (env : SysEnv) (out : String) (pre rest : List RecvEvent)
    (ev : RecvEvent) (hsetup : setup_ok env) (hrecv : env.recv = pre ++ ev :: rest)
    (hpre : ∀ e ∈ pre, rejected_frame big_endian
      (arp_request big_endian env.me macaddr ipaddr) e) :
    main_probe big_endian iface ipaddr macaddr env out =
      match main_recv_loop big_endian (arp_request big_endian env.me macaddr ipaddr)
          env.socket_ret (ev :: rest)
          (setup_trace big_endian iface ipaddr macaddr env
            ++ List.replicate pre.length (Syscall.recvfrom env.socket_ret)) with
      | (none, t5) => ⟨none, out, t5⟩
      | (some (ret, response), t5) =>
        ⟨some ret, if ret = ERR_SUCCESS then out ++ printf_sha response.arp_sha else out,
          t5 ++ [Syscall.close env.socket_ret]⟩ := by
  rw [main_probe_of_setup_ok big_endian iface ipaddr macaddr env out hsetup, hrecv,
    recv_loop_skip big_endian _ _ (ev :: rest) pre _ hpre]

/-! ## Lemmas on interface resolution -/

theorem nat_lor_eq_zero_iff (a b : Nat) : a ||| b = 0 ↔ a = 0 ∧ b = 0 := by
  constructor
  · intro h
    have hbit : ∀ i, (a.testBit i || b.testBit i) = false := by
      intro i
      rw [← Nat.testBit_or, h, Nat.zero_testBit]
    constructor
    · apply Nat.eq_of_testBit_eq
      intro i
      have := hbit i
      simp only [Bool.or_eq_false_iff] at this
      rw [this.1, Nat.zero_testBit]
    · apply Nat.eq_of_testBit_eq
      intro i
      have := hbit i
      simp only [Bool.or_eq_false_iff] at this
      rw [this.2, Nat.zero_testBit]
  · rintro ⟨rfl, rfl⟩
    rfl

theorem flags_ok_iff (ifflags : Nat) :
    flags_ok ifflags = true ↔
      ¬ ifflags &&& IFF_UP = 0 ∧ ¬ ifflags &&& (IFF_NOARP ||| IFF_LOOPBACK) ≠ 0 := by
  unfold flags_ok
  rw [Nat.and_or_distrib_left]
  simp only [ne_eq, not_not, nat_lor_eq_zero_iff, decide_eq_true_eq]
  tauto

/-- What `check_ifflags` does, by the flags and `fatal`. -/
theorem check_ifflags_eq (ifflags : Nat) (fatal : Bool) (devname : Option String)
    (out : String) :
    check_ifflags ifflags fatal devname out =
      if flags_ok ifflags = true then Outcome.returned 0 out
      else if fatal = true then Outcome.exited 2 (out ++ flag_message devname ifflags)
      else Outcome.returned (-1) out := by
  by_cases hok : flags_ok ifflags = true
  · have h := (flags_ok_iff ifflags).mp hok
    simp only [check_ifflags, if_neg h.1, if_neg h.2, if_pos hok]
  · rw [if_neg hok]
    have h := mt (flags_ok_iff ifflags).mpr hok
    unfold check_ifflags flag_message
    by_cases hup : ifflags &&& IFF_UP = 0
    · simp only [if_pos hup, String.append_assoc]
    · have h2 : ifflags &&& (IFF_NOARP ||| IFF_LOOPBACK) ≠ 0 := by
        intro hc
        exact h ⟨hup, not_not.mpr hc⟩
      simp only [if_neg hup, if_pos h2, String.append_assoc]

/-- One turn of the loop of `find_device_by_ifaddrs`. -/
theorem ifaddrs_loop_cons (name : Option String) (x : ifaddrs) (rest : List ifaddrs)
    (sel : Option ifaddrs) (count : Nat) (out : String) :
    ifaddrs_loop name (x :: rest) sel count out =
      if reaches_check name x = true then
        if flags_ok x.ifa_flags = true then
          if has_ll_addr x = true ∧ x.ifa_broadaddr.isSome = true then
            if count ≠ 0 then LoopEnd.left (some x) (count + 1) out
            else ifaddrs_loop name rest (some x) (count + 1) out
          else ifaddrs_loop name rest sel count out
        else if name.isSome = true then
          LoopEnd.exited 2 sel (out ++ flag_message name x.ifa_flags)
        else ifaddrs_loop name rest sel count out
      else ifaddrs_loop name rest sel count out := by
  rw [ifaddrs_loop]
  cases haddr : x.ifa_addr with
  | none => simp [reaches_check, haddr]
  | some sa =>
    simp only [reaches_check, has_ll_addr, haddr, check_ifflags_eq]
    have hiff : (name.isSome = true ∧ x.ifa_name.isSome = true
          ∧ strcmp (x.ifa_name.getD "") (name.getD "") ≠ 0)
        ↔ (name.isSome = true ∧ x.ifa_name.isSome = true ∧ x.ifa_name ≠ name) := by
      constructor
      · rintro ⟨h1, h2, h3⟩
        refine ⟨h1, h2, ?_⟩
        obtain ⟨n, rfl⟩ := Option.isSome_iff_exists.mp h1
        obtain ⟨m, hm⟩ := Option.isSome_iff_exists.mp h2
        rw [hm] at h3 ⊢
        intro h
        apply h3
        have : m = n := Option.some.inj h
        simp [strcmp, this]
      · rintro ⟨h1, h2, h3⟩
        refine ⟨h1, h2, ?_⟩
        obtain ⟨n, rfl⟩ := Option.isSome_iff_exists.mp h1
        obtain ⟨m, hm⟩ := Option.isSome_iff_exists.mp h2
        rw [hm] at h3 ⊢
        have : m ≠ n := fun h => h3 (by rw [h])
        simp [strcmp, this]
    simp only [hiff, decide_eq_true_eq]
    by_cases hfam : sa.sa_family = AF_PACKET
    · rw [if_neg (not_not.mpr hfam)]
      by_cases hnm : name.isSome = true ∧ x.ifa_name.isSome = true ∧ x.ifa_name ≠ name
      · rw [if_pos hnm, if_neg (fun h => h.2 hnm)]
      · have hreach : sa.sa_family = AF_PACKET
            ∧ ¬ (name.isSome = true ∧ x.ifa_name.isSome = true ∧ x.ifa_name ≠ name) :=
          ⟨hfam, hnm⟩
        rw [if_neg hnm, if_pos hreach]
        by_cases hok : flags_ok x.ifa_flags = true
        · rw [if_pos hok, if_pos hok]
          by_cases hlen : sa.sll_halen = 0
          · simp [hlen]
          · cases hb : x.ifa_broadaddr with
            | none => simp [hlen]
            | some b =>
              by_cases hc : count = 0
              · simp [hfam, hlen, hc]
              · simp [hfam, hlen, hc]
        · rw [if_neg hok, if_neg hok]
          by_cases hfatal : name.isSome = true
          · rw [if_pos hfatal, if_pos hfatal]
          · rw [if_neg hfatal, if_neg hfatal]
            simp
    · rw [if_pos hfam, if_neg (fun h => hfam h.1)]

theorem eligible_eq_true_iff (name : Option String) (x : ifaddrs) :
    eligible name x = true ↔
      reaches_check name x = true ∧ flags_ok x.ifa_flags = true ∧ has_ll_addr x = true
        ∧ x.ifa_broadaddr.isSome = true := by
  simp [eligible, and_assoc]

theorem ifaddrs_loop_take (name : Option String) (x : ifaddrs) (rest : List ifaddrs)
    (sel : Option ifaddrs) (count : Nat) (out : String) (h : eligible name x = true) :
    ifaddrs_loop name (x :: rest) sel count out =
      if count ≠ 0 then LoopEnd.left (some x) (count + 1) out
      else ifaddrs_loop name rest (some x) (count + 1) out := by
  obtain ⟨h1, h2, h3, h4⟩ := (eligible_eq_true_iff name x).mp h
  rw [ifaddrs_loop_cons, if_pos h1, if_pos h2, if_pos ⟨h3, h4⟩]

theorem ifaddrs_loop_skip (name : Option String) (x : ifaddrs) (rest : List ifaddrs)
    (sel : Option ifaddrs) (count : Nat) (out : String) (h : eligible name x = false)
    (hsafe : reaches_check name x = true → name.isSome = true → flags_ok x.ifa_flags = true) :
    ifaddrs_loop name (x :: rest) sel count out = ifaddrs_loop name rest sel count out := by
  rw [ifaddrs_loop_cons]
  by_cases h1 : reaches_check name x = true
  · rw [if_pos h1]
    by_cases h2 : flags_ok x.ifa_flags = true
    · rw [if_pos h2]
      have h3 : ¬ (has_ll_addr x = true ∧ x.ifa_broadaddr.isSome = true) := by
        intro h34
        have := (eligible_eq_true_iff name x).mpr ⟨h1, h2, h34.1, h34.2⟩
        rw [h] at this
        exact absurd this (by decide)
      rw [if_neg h3]
    · rw [if_neg h2]
      have h5 : ¬ name.isSome = true := fun h5 => h2 (hsafe h1 h5)
      rw [if_neg h5]
  · rw [if_neg h1]

theorem loop_safe_cons {name : Option String} {x : ifaddrs} {l : List ifaddrs}
    (h : loop_safe name (x :: l)) :
    (reaches_check name x = true → name.isSome = true → flags_ok x.ifa_flags = true)
      ∧ loop_safe name l :=
  ⟨h x (List.mem_cons_self x l), fun y hy => h y (List.mem_cons_of_mem x hy)⟩

theorem int_of_unsigned_eq_zero_iff (u : Nat) :
    int_of_unsigned u = 0 ↔ u % 4294967296 = 0 := by
  unfold int_of_unsigned
  have h := Nat.mod_lt u (show 0 < 4294967296 by decide)
  split <;> omega

theorem int_of_unsigned_of_lt (u : Nat) (h : u < 2147483648) :
    int_of_unsigned u = (u : Int) := by
  unfold int_of_unsigned
  have h1 : u % 4294967296 = u := Nat.mod_eq_of_lt (by omega)
  rw [h1, if_pos h]

/-- The loop over a first part of the list, none of whose entries makes
`check_ifflags` exit, when `count` is not zero on entry. -/
theorem ifaddrs_loop_append_pos (name : Option String) (tail : List ifaddrs) :
    ∀ (pre : List ifaddrs) (sel : Option ifaddrs) (count : Nat) (out : String),
      loop_safe name pre → count ≠ 0 →
      ifaddrs_loop name (pre ++ tail) sel count out =
        match pre.filter (eligible name) with
        | [] => ifaddrs_loop name tail sel count out
        | b :: _ => LoopEnd.left (some b) (count + 1) out := by
  intro pre
  induction pre with
  | nil => intro sel count out _ _; rfl
  | cons x l ih =>
    intro sel count out hsafe hc
    obtain ⟨hx, hl⟩ := loop_safe_cons hsafe
    by_cases he : eligible name x = true
    · rw [List.cons_append, ifaddrs_loop_take name x (l ++ tail) sel count out he, if_pos hc,
        List.filter_cons_of_pos he]
    · have he2 : eligible name x = false := by simpa using he
      rw [List.cons_append, ifaddrs_loop_skip name x (l ++ tail) sel count out he2 hx,
        List.filter_cons_of_neg he, ih sel count out hl hc]

/-- The loop over a first part of the list, none of whose entries makes
`check_ifflags` exit, from `count` zero. -/
theorem ifaddrs_loop_append_zero (name : Option String) (tail : List ifaddrs) :
    ∀ (pre : List ifaddrs) (sel : Option ifaddrs) (out : String),
      loop_safe name pre →
      ifaddrs_loop name (pre ++ tail) sel 0 out =
        match pre.filter (eligible name) with
        | [] => ifaddrs_loop name tail sel 0 out
        | [a] => ifaddrs_loop name tail (some a) 1 out
        | _ :: b :: _ => LoopEnd.left (some b) 2 out := by
  intro pre
  induction pre with
  | nil => intro sel out _; rfl
  | cons x l ih =>
    intro sel out hsafe
    obtain ⟨hx, hl⟩ := loop_safe_cons hsafe
    by_cases he : eligible name x = true
    · rw [List.cons_append, ifaddrs_loop_take name x (l ++ tail) sel 0 out he, if_neg (by simp),
        List.filter_cons_of_pos he,
        ifaddrs_loop_append_pos name tail l (some x) (0 + 1) out hl (by simp)]
      cases l.filter (eligible name) with
      | nil => rfl
      | cons b r => rfl
    · have he2 : eligible name x = false := by simpa using he
      rw [List.cons_append, ifaddrs_loop_skip name x (l ++ tail) sel 0 out he2 hx,
        List.filter_cons_of_neg he, ih sel out hl]

theorem ifaddrs_loop_count_zero (name : Option String) (l : List ifaddrs)
    (sel : Option ifaddrs) (out : String) (hsafe : loop_safe name l) :
    ifaddrs_loop name l sel 0 out =
      match l.filter (eligible name) with
      | [] => LoopEnd.left sel 0 out
      | [a] => LoopEnd.left (some a) 1 out
      | _ :: b :: _ => LoopEnd.left (some b) 2 out := by
  have h := ifaddrs_loop_append_zero name [] l sel out hsafe
  rw [List.append_nil] at h
  rw [h]
  cases l.filter (eligible name) with
  | nil => rfl
  | cons a r =>
    cases r with
    | nil => rfl
    | cons b r2 => rfl

/-- What `find_device_by_ifaddrs` returns when `check_ifflags` does not exit,
by the list of eligible entries. -/
theorem find_device_by_ifaddrs_eq (l : List ifaddrs) (idx : String → Nat)
    (st : FdState) (hsafe : loop_safe st.dev.name l) :
    find_device_by_ifaddrs (some l) idx st =
      match l.filter (eligible st.dev.name) with
      | [] => Outcome.returned 1 st
      | [a] =>
        match a.ifa_name with
        | none => Outcome.undefined ⟨{ st.dev with ifa := some a }, st.stdout⟩
        | some n =>
          if idx n % 4294967296 = 0 then
            Outcome.returned (-1)
              ⟨{ st.dev with ifa := some a, ifindex := int_of_unsigned (idx n) }, st.stdout⟩
          else
            Outcome.returned 0
              ⟨{ st.dev with ifa := some a, ifindex := int_of_unsigned (idx n) }, st.stdout⟩
      | _ :: b :: _ => Outcome.returned 1 ⟨{ st.dev with ifa := some b }, st.stdout⟩ := by
  unfold find_device_by_ifaddrs
  simp only [ifaddrs_loop_count_zero st.dev.name l st.dev.ifa st.stdout hsafe]
  cases hf : l.filter (eligible st.dev.name) with
  | nil =>
    simp only
    cases hifa : st.dev.ifa with
    | none =>
      simp only
      congr
      rw [← hifa]
    | some a =>
      simp only [if_neg (show ¬ (0 : Nat) = 1 by decide)]
      congr
      rw [← hifa]
  | cons a r =>
    cases r with
    | nil =>
      simp only [if_true]
      cases hn : a.ifa_name with
      | none => rfl
      | some n =>
        simp only [int_of_unsigned_eq_zero_iff]
    | cons b r2 =>
      simp only [if_neg (show ¬ (2 : Nat) = 1 by decide)]
/-! ## Reply validation -/

/-- C1: with `broadcast_addr` equal to ff:ff:ff:ff:ff:ff, `check_reply` returns
`ERR_SUCCESS` (0) exactly when the reply has hardware type Ethernet, protocol
type IPv4, hardware length 6, protocol length 4 and operation REPLY, its sender
protocol address equals the target protocol address of the request, and the
target hardware address of the request is the broadcast address or equals the
sender hardware address of the reply; in every other case it returns
`ERR_FAIL` (1); in particular a reply whose sender protocol address differs
from the probed address is rejected. -/
theorem check_reply_accepts_iff (big_endian : Bool) (req r : ether_arp) :
    broadcast_addr.val = [255, 255, 255, 255, 255, 255]
      ∧ ERR_SUCCESS = 0 ∧ ERR_FAIL = 1
      ∧ (check_reply big_endian broadcast_addr req r = ERR_SUCCESS ↔
          ((wire16 big_endian r.arp_hrd = ARPHRD_ETHER
              ∧ wire16 big_endian r.arp_pro = ETH_P_IP
              ∧ r.arp_hln.val = 6
              ∧ r.arp_pln.val = 4
              ∧ wire16 big_endian r.arp_op = ARPOP_REPLY)
            ∧ r.arp_spa = req.arp_tpa
            ∧ (req.arp_tha = broadcast_addr ∨ r.arp_sha = req.arp_tha)))
      ∧ (check_reply big_endian broadcast_addr req r ≠ ERR_SUCCESS →
          check_reply big_endian broadcast_addr req r = ERR_FAIL)
      ∧ (r.arp_spa ≠ req.arp_tpa →
          check_reply big_endian broadcast_addr req r = ERR_FAIL) := by
  have hiff := check_reply_eq_zero_iff big_endian broadcast_addr req r
  have h01 := check_reply_zero_or_one big_endian broadcast_addr req r
  refine ⟨by decide, rfl, rfl, hiff, ?_, ?_⟩
  · intro hne
    rcases h01 with h | h
    · exact absurd h hne
    · exact h
  · intro hne
    rcases h01 with h | h
    · exact absurd (hiff.mp h).2.1 hne
    · exact h

/-- A reply from 10.0.0.9 to a probe of 10.0.0.5 is rejected. -/
theorem check_reply_accepts_iff_witness :
    check_reply false broadcast_addr (arp_request false sample_me broadcast_addr sample_ip)
        stranger_reply = ERR_FAIL :=
  (check_reply_accepts_iff false (arp_request false sample_me broadcast_addr sample_ip)
    stranger_reply).2.2.2.2.2 (by decide)

/-! ## The probe -/

/-- C2, as stated, fails: a reply with operation REPLY and the probed sender
protocol address, answering a broadcast request, is rejected when its hardware
type is not Ethernet. -/
theorem reply_without_shape_rejected :
    ¬ (∀ (big_endian : Bool) (me : sockaddr_ll) (T : ByteArr 4) (H : ByteArr 6)
        (r : ether_arp),
        r.arp_spa = T → wire16 big_endian r.arp_op = ARPOP_REPLY →
        (H = broadcast_addr ∨ r.arp_sha = H) →
        check_reply big_endian broadcast_addr (arp_request big_endian me H T) r
          = ERR_SUCCESS) := by
  intro h
  have h1 := h false sample_me sample_ip broadcast_addr ieee802_reply
    (by decide) (by decide) (Or.inl rfl)
  revert h1
  decide

/-- C2 (amended): a received reply of the basic shape (Ethernet, IPv4, lengths
6 and 4, operation REPLY) whose sender protocol address is the probed address
`T`, with the target hardware address `H` of the request being the broadcast
address or the sender hardware address of the reply, is accepted by
`check_reply`, and the probe ends with status 0 having printed the sender
hardware address of that reply. -/
theorem accepted_reply_is_reported (big_endian : Bool) (iface : device) (T : ByteArr 4)
    (H : ByteArr 6) (env : SysEnv) (out : String) (pre rest : List RecvEvent)
    (ev : RecvEvent) (hsetup : setup_ok env) (hrecv : env.recv = pre ++ ev :: rest)
    (hpre : ∀ e ∈ pre, rejected_frame big_endian (arp_request big_endian env.me H T) e)
    (hret : 0 < ev.recv_ret)
    (hshape : reply_shape big_endian ev.response)
    (hspa : ev.response.arp_spa = T)
    (hsha : H = broadcast_addr ∨ ev.response.arp_sha = H) :
    check_reply big_endian broadcast_addr (arp_request big_endian env.me H T) ev.response
        = ERR_SUCCESS
      ∧ (main_probe big_endian iface T H env out).status = some 0
      ∧ (main_probe big_endian iface T H env out).stdout
          = out ++ colon_hex_line ev.response.arp_sha.val := by
  have hacc : check_reply big_endian broadcast_addr (arp_request big_endian env.me H T)
      ev.response = 0 := by
    rw [check_reply_eq_zero_iff, arp_request_tha, arp_request_tpa]
    exact ⟨hshape, hspa, hsha⟩
  have h1 : ¬ ev.recv_ret ≤ 0 := by omega
  have hloop : ∀ tr, main_recv_loop big_endian (arp_request big_endian env.me H T)
      env.socket_ret (ev :: rest) tr
        = (some (ERR_SUCCESS, ev.response), tr ++ [Syscall.recvfrom env.socket_ret]) := by
    intro tr
    simp [main_recv_loop, h1, hacc]
  rw [main_probe_decided big_endian iface T H env out pre rest ev hsetup hrecv hpre, hloop]
  refine ⟨hacc, rfl, ?_⟩
  simp [printf_sha_eq_colon_hex_line]

/-- After a frame from a stranger, the reply of 10.0.0.5 ends a broadcast probe and its
hardware address is printed. -/
theorem accepted_reply_is_reported_witness :
    (main_probe false sample_iface sample_ip broadcast_addr
        (sample_env [frame_event stranger_reply, frame_event sample_reply]) "").stdout
      = "" ++ colon_hex_line sample_reply.arp_sha.val :=
  (accepted_reply_is_reported false sample_iface sample_ip broadcast_addr
    (sample_env [frame_event stranger_reply, frame_event sample_reply]) ""
    [frame_event stranger_reply] [] (frame_event sample_reply)
    (by decide) rfl (by decide) (by decide) (by decide) (by decide) (Or.inl rfl)).2.2

/-- C3: when the probe is issued with a non-broadcast override `M` as target
hardware address, `check_reply` rejects every reply whose sender hardware
address differs from `M`, whatever its sender protocol address; such a frame
does not end the receive loop; and whenever the probe ends with status 0 the
hardware address it has printed is `M`. -/
theorem directed_probe_reports_override (big_endian : Bool) (iface : device)
    (T : ByteArr 4) (M : ByteArr 6) (env : SysEnv) (out : String)
    (hM : M ≠ broadcast_addr) :
    (∀ r : ether_arp, r.arp_sha ≠ M →
        check_reply big_endian broadcast_addr (arp_request big_endian env.me M T) r = ERR_FAIL)
      ∧ (∀ (ev : RecvEvent) (rest : List RecvEvent) (tr : List Syscall),
          0 < ev.recv_ret → ev.response.arp_sha ≠ M →
          main_recv_loop big_endian (arp_request big_endian env.me M T) env.socket_ret
              (ev :: rest) tr
            = main_recv_loop big_endian (arp_request big_endian env.me M T) env.socket_ret
              rest (tr ++ [Syscall.recvfrom env.socket_ret]))
      ∧ ((main_probe big_endian iface T M env out).status = some 0 →
          (main_probe big_endian iface T M env out).stdout = out ++ colon_hex_line M.val) := by
  have hrej : ∀ r : ether_arp, r.arp_sha ≠ M →
      check_reply big_endian broadcast_addr (arp_request big_endian env.me M T) r = ERR_FAIL := by
    intro r hr
    rcases check_reply_zero_or_one big_endian broadcast_addr
      (arp_request big_endian env.me M T) r with h | h
    · rw [check_reply_eq_zero_iff, arp_request_tha] at h
      rcases h.2.2 with h2 | h2
      · exact absurd h2 hM
      · exact absurd h2 hr
    · exact h
  refine ⟨hrej, ?_, ?_⟩
  · intro ev rest tr hret hsha
    have h1 : ¬ ev.recv_ret ≤ 0 := by omega
    have h2 : check_reply big_endian broadcast_addr (arp_request big_endian env.me M T)
        ev.response ≠ 0 := by
      rw [hrej ev.response hsha]; decide
    simp only [main_recv_loop, if_neg h1, if_pos h2]
  · intro hstatus
    by_cases hsetup : setup_ok env
    · rw [main_probe_of_setup_ok big_endian iface T M env out hsetup] at hstatus ⊢
      generalize hres : main_recv_loop big_endian (arp_request big_endian env.me M T)
        env.socket_ret env.recv (setup_trace big_endian iface T M env) = res at hstatus ⊢
      obtain ⟨o, t5⟩ := res
      cases o with
      | none => simp at hstatus
      | some p =>
        obtain ⟨ret, resp⟩ := p
        simp only [Option.some.injEq] at hstatus
        have hr := (recv_loop_result big_endian _ _ _ _ _ _ _ hres).2 hstatus
        rw [check_reply_eq_zero_iff, arp_request_tha] at hr
        have hsha : resp.arp_sha = M := by
          rcases hr.1.2.2 with h2 | h2
          · exact absurd h2 hM
          · exact h2
        simp [hstatus, ERR_SUCCESS, printf_sha_eq_colon_hex_line, hsha]
    · have h3 := (main_probe_of_not_setup_ok big_endian iface T M env out hsetup).1
      rw [h3] at hstatus
      exact absurd hstatus (by decide)

/-- A probe directed at AA:BB:CC:DD:EE:FF rejects the reply sent from another hardware
address and prints the override when the right reply follows. -/
theorem directed_probe_reports_override_witness :
    check_reply false broadcast_addr
        (arp_request false (sample_env [frame_event other_reply, frame_event sample_reply]).me
          sample_mac sample_ip) other_reply = ERR_FAIL
      ∧ (main_probe false sample_iface sample_ip sample_mac
          (sample_env [frame_event other_reply, frame_event sample_reply]) "").stdout
        = "" ++ colon_hex_line sample_mac.val :=
  ⟨(directed_probe_reports_override false sample_iface sample_ip sample_mac
      (sample_env [frame_event other_reply, frame_event sample_reply]) ""
      (by decide)).1 other_reply (by decide),
    (directed_probe_reports_override false sample_iface sample_ip sample_mac
      (sample_env [frame_event other_reply, frame_event sample_reply]) ""
      (by decide)).2.2 (by decide)⟩

/-- The receive loop as the code runs it. After frames of positive length that
`check_reply` rejects, the next answer of `recvfrom` decides the probe: a
return value of zero or less with `errno` at `EAGAIN`/`EWOULDBLOCK` gives
status 1 and prints nothing, a return value of zero or less with another
`errno` gives status 3 and prints nothing, a frame of positive length that
`check_reply` accepts gives status 0 and prints its sender hardware address as
six two-digit upper-case hexadecimal bytes separated by colons and ended by a
newline; `recvfrom` was called once per skipped frame and once more, and the
socket is then closed. -/
theorem first_deciding_event (big_endian : Bool) (iface : device) (T : ByteArr 4)
    (H : ByteArr 6) (env : SysEnv) (out : String) (pre rest : List RecvEvent)
    (ev : RecvEvent) (hsetup : setup_ok env) (hrecv : env.recv = pre ++ ev :: rest)
    (hpre : ∀ e ∈ pre, rejected_frame big_endian (arp_request big_endian env.me H T) e) :
    (ev.recv_ret ≤ 0 ∧ (ev.errno = EAGAIN ∨ ev.errno = EWOULDBLOCK) →
        main_probe big_endian iface T H env out
          = ⟨some 1, out, setup_trace big_endian iface T H env
              ++ List.replicate (pre.length + 1) (Syscall.recvfrom env.socket_ret)
              ++ [Syscall.close env.socket_ret]⟩)
      ∧ (ev.recv_ret ≤ 0 ∧ ¬ (ev.errno = EAGAIN ∨ ev.errno = EWOULDBLOCK) →
        main_probe big_endian iface T H env out
          = ⟨some 3, out, setup_trace big_endian iface T H env
              ++ List.replicate (pre.length + 1) (Syscall.recvfrom env.socket_ret)
              ++ [Syscall.close env.socket_ret]⟩)
      ∧ (0 < ev.recv_ret
          ∧ check_reply big_endian broadcast_addr (arp_request big_endian env.me H T)
              ev.response = ERR_SUCCESS →
        main_probe big_endian iface T H env out
          = ⟨some 0, out ++ colon_hex_line ev.response.arp_sha.val,
              setup_trace big_endian iface T H env
              ++ List.replicate (pre.length + 1) (Syscall.recvfrom env.socket_ret)
              ++ [Syscall.close env.socket_ret]⟩)
      ∧ colon_hex_line sample_mac.val = "AA:BB:CC:DD:EE:FF\n" := by
  have hrep : ∀ (tr : List Syscall) (k : Nat) (c : Syscall),
      tr ++ List.replicate k c ++ [c] = tr ++ List.replicate (k + 1) c := by
    intro tr k c
    rw [List.append_assoc, List.replicate_succ']
  rw [main_probe_decided big_endian iface T H env out pre rest ev hsetup hrecv hpre]
  refine ⟨?_, ?_, ?_, by decide⟩
  · rintro ⟨h1, h2⟩
    simp only [main_recv_loop, if_pos h1, if_pos h2, hrep]
    simp [ERR_FAIL, ERR_SUCCESS]
  · rintro ⟨h1, h2⟩
    simp only [main_recv_loop, if_pos h1, if_neg h2, hrep]
    simp [ERR_SYS, ERR_SUCCESS]
  · rintro ⟨h1, h2⟩
    have h1n : ¬ ev.recv_ret ≤ 0 := by omega
    have h2n : ¬ check_reply big_endian broadcast_addr (arp_request big_endian env.me H T)
        ev.response ≠ 0 := by
      rw [h2]; decide
    simp only [main_recv_loop, if_neg h1n, if_neg h2n, hrep]
    simp [ERR_SUCCESS, printf_sha_eq_colon_hex_line]

/-- A rejected frame followed by a timeout: status 1. -/
theorem first_deciding_event_witness :
    (main_probe false sample_iface sample_ip broadcast_addr
        (sample_env [frame_event stranger_reply, timeout_event, frame_event sample_reply]) "").status
      = some 1 :=
  congrArg Exit.status
    ((first_deciding_event false sample_iface sample_ip broadcast_addr
      (sample_env [frame_event stranger_reply, timeout_event, frame_event sample_reply]) ""
      [frame_event stranger_reply] [frame_event sample_reply] timeout_event
      (by decide) rfl (by decide)).1 (by decide))

theorem arp_request_bytes (big_endian : Bool) (me : sockaddr_ll) (macaddr : ByteArr 6)
    (ipaddr : ByteArr 4) :
    (arp_request big_endian me macaddr ipaddr).bytes big_endian
      = [0, 1, 8, 0, 6, 4, 0, 1] ++ me.sll_addr.val.take 6 ++ [0, 0, 0, 0]
          ++ macaddr.val ++ ipaddr.val := by
  have h6 : macaddr.val.take 6 = macaddr.val :=
    List.take_of_length_le (by rw [macaddr.property])
  have h4 : ipaddr.val.take 4 = ipaddr.val :=
    List.take_of_length_le (by rw [ipaddr.property])
  cases big_endian
  · simp only [ether_arp.bytes, arp_request, memcpy, memset, h6, h4]
    rfl
  · simp only [ether_arp.bytes, arp_request, memcpy, memset, h6, h4]
    rfl

theorem arp_request_header (big_endian : Bool) (me : sockaddr_ll) (macaddr : ByteArr 6)
    (ipaddr : ByteArr 4) :
    wire16 big_endian (arp_request big_endian me macaddr ipaddr).arp_hrd = 1
      ∧ wire16 big_endian (arp_request big_endian me macaddr ipaddr).arp_pro = 0x0800
      ∧ (arp_request big_endian me macaddr ipaddr).arp_hln.val = 6
      ∧ (arp_request big_endian me macaddr ipaddr).arp_pln.val = 4
      ∧ wire16 big_endian (arp_request big_endian me macaddr ipaddr).arp_op = 1 := by
  cases big_endian <;>
    simp [arp_request, wire16, htons, ARPHRD_ETHER, ETH_P_IP, ETHER_ADDR_LEN, sizeof_in_addr_t,
      ARPOP_REQUEST, Fin.ofNat] <;> decide

theorem main_probe_trace_setup (big_endian : Bool) (iface : device) (ipaddr : ByteArr 4)
    (macaddr : ByteArr 6) (env : SysEnv) (out : String)
    (h1 : env.socket_ret ≠ -1) (h2 : ¬ env.setsockopt_ret < 0) (h3 : env.bind_ret ≠ -1)
    (h4 : env.getsockname_ret ≠ -1) (h5 : env.me.sll_halen ≠ 0) :
    ∃ suffix, (main_probe big_endian iface ipaddr macaddr env out).trace
      = setup_trace big_endian iface ipaddr macaddr env ++ suffix := by
  by_cases h6 : env.sendto_ret = -1
  · refine ⟨[], ?_⟩
    simp [main_probe, setup_trace, bind_addr, sendto_addr, h1, h2, h3, h4, h5, h6]
  · rw [main_probe_of_setup_ok big_endian iface ipaddr macaddr env out ⟨h1, h2, h3, h4, h5, h6⟩]
    obtain ⟨k, hk⟩ := recv_loop_trace big_endian (arp_request big_endian env.me macaddr ipaddr)
      env.socket_ret env.recv (setup_trace big_endian iface ipaddr macaddr env)
    generalize hres : main_recv_loop big_endian (arp_request big_endian env.me macaddr ipaddr)
      env.socket_ret env.recv (setup_trace big_endian iface ipaddr macaddr env) = res at hk ⊢
    obtain ⟨o, t5⟩ := res
    simp only at hk
    subst hk
    cases o with
    | none => exact ⟨_, rfl⟩
    | some p => exact ⟨_, List.append_assoc _ _ _⟩

/-- C5: once the interface is resolved and the socket is set up, the fifth
system call of `main` is the `sendto` of the ARP request, whose fields on the
wire are hardware type Ethernet (1), protocol type IPv4 (0x0800), hardware
length 6, protocol length 4, operation REQUEST (1), sender hardware address
the own address `L` reported by `getsockname`, sender protocol address
0.0.0.0, target hardware address `H` and target protocol address `T`, where
`H` is ff:ff:ff:ff:ff:ff without option `-m` and the override with it; the 28
bytes sent are these fields in order, the 16-bit ones in network byte order,
and the link-layer destination of the frame is `H`. -/
theorem request_sent (big_endian : Bool) (find_dev : FdState → Outcome FdState)
    (iface0 : device) (name : String) (T : ByteArr 4) (macaddr_opt : Option (ByteArr 6))
    (env : SysEnv) (st : FdState)
    (hdev : find_dev ⟨{ iface0 with name := some name }, ""⟩ = Outcome.returned 0 st)
    (h1 : env.socket_ret ≠ -1) (h2 : ¬ env.setsockopt_ret < 0) (h3 : env.bind_ret ≠ -1)
    (h4 : env.getsockname_ret ≠ -1) (h5 : env.me.sll_halen ≠ 0) :
    ∃ (req : ether_arp) (dest : sockaddr_ll),
      (main big_endian find_dev iface0 name T macaddr_opt env).trace[4]?
          = some (Syscall.sendto env.socket_ret (req.bytes big_endian) dest)
        ∧ wire16 big_endian req.arp_hrd = 1
        ∧ wire16 big_endian req.arp_pro = 0x0800
        ∧ req.arp_hln.val = 6
        ∧ req.arp_pln.val = 4
        ∧ wire16 big_endian req.arp_op = 1
        ∧ req.arp_sha.val = env.me.sll_addr.val.take 6
        ∧ req.arp_spa.val = [0, 0, 0, 0]
        ∧ req.arp_tha = macaddr_after_options macaddr_opt
        ∧ req.arp_tpa = T
        ∧ req.bytes big_endian
            = [0, 1, 8, 0, 6, 4, 0, 1] ++ env.me.sll_addr.val.take 6 ++ [0, 0, 0, 0]
                ++ (macaddr_after_options macaddr_opt).val ++ T.val
        ∧ (req.bytes big_endian).length = 28
        ∧ dest.sll_halen = 6
        ∧ dest.sll_addr.val.take dest.sll_halen = (macaddr_after_options macaddr_opt).val
        ∧ macaddr_after_options none = broadcast_addr
        ∧ broadcast_addr.val = [255, 255, 255, 255, 255, 255]
        ∧ (∀ m, macaddr_after_options (some m) = m) := by
  obtain ⟨suffix, hsuf⟩ := main_probe_trace_setup big_endian st.dev T
    (macaddr_after_options macaddr_opt) env st.stdout h1 h2 h3 h4 h5
  have hmain : main big_endian find_dev iface0 name T macaddr_opt env
      = main_probe big_endian st.dev T (macaddr_after_options macaddr_opt) env st.stdout := by
    simp [main, hdev]
  have hH : (macaddr_after_options macaddr_opt).val.take 6
      = (macaddr_after_options macaddr_opt).val :=
    List.take_of_length_le (by rw [(macaddr_after_options macaddr_opt).property])
  refine ⟨arp_request big_endian env.me (macaddr_after_options macaddr_opt) T,
    sendto_addr big_endian st.dev (macaddr_after_options macaddr_opt), ?_, ?_, ?_,
    ?_, ?_, ?_, ?_, ?_, arp_request_tha _ _ _ _, arp_request_tpa _ _ _ _,
    arp_request_bytes _ _ _ _, ?_, ?_, ?_, rfl, by decide, fun _ => rfl⟩
  · rw [hmain, hsuf]
    simp only [setup_trace, List.cons_append, List.getElem?_cons_succ, List.getElem?_cons_zero]
  · exact (arp_request_header big_endian _ _ _).1
  · exact (arp_request_header big_endian _ _ _).2.1
  · exact (arp_request_header big_endian _ _ _).2.2.1
  · exact (arp_request_header big_endian _ _ _).2.2.2.1
  · exact (arp_request_header big_endian _ _ _).2.2.2.2
  · simp [arp_request, memcpy]
  · simp only [arp_request, memset]
    decide
  · rw [arp_request_bytes]
    simp [env.me.sll_addr.property, (macaddr_after_options macaddr_opt).property, T.property]
  · rfl
  · simp only [sendto_addr, memcpy_head, ETHER_ADDR_LEN, ETH_ALEN, hH]
    simp [(macaddr_after_options macaddr_opt).property]

/-- The request for 10.0.0.5 sent from 02:00:00:00:00:01 without option `-m`. -/
theorem request_sent_witness :
    ∃ (req : ether_arp) (dest : sockaddr_ll),
      (main false (fun st => Outcome.returned 0 st) sample_iface "eth0" sample_ip none
          (sample_env [])).trace[4]?
          = some (Syscall.sendto 3 (req.bytes false) dest)
        ∧ req.bytes false
            = [0, 1, 8, 0, 6, 4, 0, 1, 2, 0, 0, 0, 0, 1, 0, 0, 0, 0,
                255, 255, 255, 255, 255, 255, 10, 0, 0, 5]
        ∧ dest.sll_addr.val.take dest.sll_halen = [255, 255, 255, 255, 255, 255] := by
  obtain ⟨req, dest, h⟩ := request_sent false (fun st => Outcome.returned 0 st) sample_iface
    "eth0" sample_ip none (sample_env []) _ rfl (by decide) (by decide) (by decide)
    (by decide) (by decide)
  exact ⟨req, dest, h.1, h.2.2.2.2.2.2.2.2.2.2.1, h.2.2.2.2.2.2.2.2.2.2.2.2.2.1⟩

/-- C10 (the code at a failing input): the socket is opened as descriptor 3,
set up and bound, and `sendto` fails. The function `main` ends with status 3
and its last call on the socket is that `sendto`: `close` is not called. When
instead `recvfrom` times out, `main` ends with status 1 and its last call is
`close`. -/
theorem sendto_failure_skips_close :
    (main false (fun st => Outcome.returned 0 st) sample_iface "eth0" sample_ip none
        sendto_fails_env).status = some 3
      ∧ Syscall.close 3 ∉
          (main false (fun st => Outcome.returned 0 st) sample_iface "eth0" sample_ip none
            sendto_fails_env).trace
      ∧ (main false (fun st => Outcome.returned 0 st) sample_iface "eth0" sample_ip none
          sendto_fails_env).trace.length = 5
      ∧ (main false (fun st => Outcome.returned 0 st) sample_iface "eth0" sample_ip none
          (sample_env [timeout_event])).status = some 1
      ∧ (main false (fun st => Outcome.returned 0 st) sample_iface "eth0" sample_ip none
          (sample_env [timeout_event])).trace.getLast? = some (Syscall.close 3) := by
  decide
/-! ## The chain of strategies -/

/-- C6: `find_device` tries the strategies in the order ifaddrs, sysfs, ioctl
and returns the outcome of the first one that returns a code that is zero or
positive; a later strategy runs only when every earlier one returned a
negative code, and when both earlier ones did, the result is that of the ioctl
strategy. Stated for strategies that record their run and return given codes,
and for arbitrary strategies. -/
theorem find_device_chain (r1 r2 r3 : Int) :
    find_device (recording Strategy.ifaddrs r1) (recording Strategy.sysfs r2)
        (recording Strategy.ioctl r3) []
      = (if 0 ≤ r1 then Outcome.returned r1 [Strategy.ifaddrs]
          else if 0 ≤ r2 then Outcome.returned r2 [Strategy.ifaddrs, Strategy.sysfs]
          else Outcome.returned r3 [Strategy.ifaddrs, Strategy.sysfs, Strategy.ioctl])
      ∧ ∀ (σ : Type) (s1 s2 s3 : σ → Outcome σ) (st st1 st2 : σ) (rc1 rc2 : Int),
          (s1 st = Outcome.returned rc1 st1 → 0 ≤ rc1 →
            find_device s1 s2 s3 st = Outcome.returned rc1 st1)
          ∧ (s1 st = Outcome.returned rc1 st1 → rc1 < 0 →
              s2 st1 = Outcome.returned rc2 st2 → 0 ≤ rc2 →
              find_device s1 s2 s3 st = Outcome.returned rc2 st2)
          ∧ (s1 st = Outcome.returned rc1 st1 → rc1 < 0 →
              s2 st1 = Outcome.returned rc2 st2 → rc2 < 0 →
              find_device s1 s2 s3 st = s3 st2) := by
  constructor
  · simp only [find_device, recording, ge_iff_le, List.nil_append, List.cons_append]
  · intro σ s1 s2 s3 st st1 st2 rc1 rc2
    refine ⟨?_, ?_, ?_⟩
    · intro h1 hr1
      simp [find_device, h1, hr1]
    · intro h1 hr1 h2 hr2
      have : ¬ 0 ≤ rc1 := by omega
      simp [find_device, h1, h2, this, hr2]
    · intro h1 hr1 h2 hr2
      have h1n : ¬ 0 ≤ rc1 := by omega
      have h2n : ¬ 0 ≤ rc2 := by omega
      simp [find_device, h1, h2, h1n, h2n]

/-- With only a loopback interface the first strategy returns 1 and that is the result. -/
theorem find_device_chain_witness :
    find_device (find_device_by_ifaddrs (some [lo_entry]) sample_nametoindex)
        (later_strategy 0) (later_strategy 0) (fd_start none)
      = Outcome.returned 1 (fd_start none) :=
  ((find_device_chain 0 0 0).2 FdState
    (find_device_by_ifaddrs (some [lo_entry]) sample_nametoindex)
    (later_strategy 0) (later_strategy 0) (fd_start none) (fd_start none) (fd_start none) 1 0).1
    (by decide) (by decide)

/-! ## Link-address enumeration -/

/-- C7, as stated, fails: with no name supplied and a single interface that is
up, not loopback, ARP-capable and has a link-layer address of non-zero length,
but no broadcast address, `find_device_by_ifaddrs` returns 1 and selects
nothing. And with a single interface that has all of these and a broadcast
address, it returns -1 when `if_nametoindex` does not resolve the name. -/
theorem lone_interface_without_broadcast_not_found :
    [nobroadcast_entry].filter eligible_as_claimed = [nobroadcast_entry]
      ∧ nobroadcast_entry.ifa_name = some "ptp0"
      ∧ sample_nametoindex "ptp0" ≠ 0
      ∧ find_device_by_ifaddrs (some [nobroadcast_entry]) sample_nametoindex (fd_start none)
          = Outcome.returned 1 (fd_start none)
      ∧ [eth0_entry].filter eligible_as_claimed = [eth0_entry]
      ∧ find_device_by_ifaddrs (some [eth0_entry]) (fun _ => 0) (fd_start none)
          = Outcome.returned (-1)
              ⟨{ (fd_start none).dev with ifa := some eth0_entry, ifindex := 0 }, ""⟩ := by
  decide

/-- C7 (amended): with no name supplied, `find_device_by_ifaddrs` returns 0
exactly when exactly one entry is eligible, where eligible means up, not
loopback, ARP-capable, with a link-layer address of non-zero length and with a
broadcast address, that entry has a name, and `if_nametoindex` gives a
non-zero index for the name; then `dev->ifa` is that entry and `dev->ifindex`
holds that index converted to `int` (the index itself when it is below
`2^31`). With no eligible entry or more than one it returns 1, and nothing is
printed. -/
theorem resolution_without_name (l : List ifaddrs) (idx : String → Nat) (st : FdState)
    (hname : st.dev.name = none) :
    (∀ x, eligible none x = (eligible_as_claimed x && x.ifa_broadaddr.isSome))
      ∧ (∀ a n, l.filter (eligible none) = [a] → a.ifa_name = some n →
          idx n % 4294967296 ≠ 0 →
          find_device_by_ifaddrs (some l) idx st
            = Outcome.returned 0
                ⟨{ st.dev with ifa := some a, ifindex := int_of_unsigned (idx n) }, st.stdout⟩)
      ∧ ((l.filter (eligible none)).length ≠ 1 →
          ∃ dev1, find_device_by_ifaddrs (some l) idx st = Outcome.returned 1 ⟨dev1, st.stdout⟩)
      ∧ (∀ st1, find_device_by_ifaddrs (some l) idx st = Outcome.returned 0 st1 →
          ∃ a n, l.filter (eligible none) = [a] ∧ a.ifa_name = some n
            ∧ idx n % 4294967296 ≠ 0
            ∧ st1.dev.ifa = some a ∧ st1.dev.ifindex = int_of_unsigned (idx n)
            ∧ st1.stdout = st.stdout)
      ∧ (∀ u : Nat, u < 2147483648 → int_of_unsigned u = (u : Int)) := by
  have hsafe : loop_safe st.dev.name l := by
    intro x _ _ hsome
    rw [hname] at hsome
    exact absurd hsome (by decide)
  have heq := find_device_by_ifaddrs_eq l idx st hsafe
  rw [hname] at heq
  refine ⟨?_, ?_, ?_, ?_, int_of_unsigned_of_lt⟩
  · intro x
    unfold eligible eligible_as_claimed reaches_check has_ll_addr
    cases x.ifa_addr with
    | none => simp
    | some sa =>
      by_cases hfam : sa.sa_family = AF_PACKET
      · simp [hfam]
      · simp [hfam]
  · intro a n ha hn hi
    rw [heq, ha]
    simp only [hn, if_neg hi]
  · intro hlen
    rw [heq]
    cases hf : l.filter (eligible none) with
    | nil => exact ⟨st.dev, rfl⟩
    | cons a r =>
      cases r with
      | nil => rw [hf] at hlen; exact absurd rfl hlen
      | cons b r2 => exact ⟨_, rfl⟩
  · intro st1 h
    rw [heq] at h
    cases hf : l.filter (eligible none) with
    | nil => rw [hf] at h; simp at h
    | cons a r =>
      cases r with
      | nil =>
        rw [hf] at h
        cases hn : a.ifa_name with
        | none => simp [hn] at h
        | some n =>
          by_cases hi : idx n % 4294967296 = 0
          · simp [hn, hi] at h
          · simp only [hn, if_neg hi, Outcome.returned.injEq, true_and] at h
            subst h
            exact ⟨a, n, rfl, hn, hi, rfl, rfl, rfl⟩
      | cons b r2 => rw [hf] at h; simp at h

/-- Among `lo`, `eth0` and an interface without broadcast address, `eth0` is selected. -/
theorem resolution_without_name_witness :
    find_device_by_ifaddrs (some [lo_entry, eth0_entry, nobroadcast_entry]) sample_nametoindex
        (fd_start none)
      = Outcome.returned 0
          ⟨{ (fd_start none).dev with
              ifa := some eth0_entry, ifindex := int_of_unsigned (sample_nametoindex "eth0") },
            (fd_start none).stdout⟩ :=
  (resolution_without_name [lo_entry, eth0_entry, nobroadcast_entry] sample_nametoindex
    (fd_start none) rfl).2.1 eth0_entry "eth0" (by decide) (by decide) (by decide)

theorem ifaddrs_loop_exit_at (name : String) (x : ifaddrs)
    (hx : reaches_check (some name) x = true) (hbad : flags_ok x.ifa_flags = false)
    (rest : List ifaddrs) (sel : Option ifaddrs) (count : Nat) (out : String) :
    ifaddrs_loop (some name) (x :: rest) sel count out
      = LoopEnd.exited 2 sel (out ++ flag_message (some name) x.ifa_flags) := by
  have hb : ¬ flags_ok x.ifa_flags = true := by rw [hbad]; decide
  rw [ifaddrs_loop_cons, if_pos hx, if_neg hb,
    if_pos (show (some name).isSome = true from rfl)]

/-- C8, as stated, fails: the name `eth0` is supplied and the only entry of
that name is a link-layer entry that is down, yet after two eligible entries
that pass the name filter (two entries without a name, or two further entries
named `eth0`) the loop has stopped: `find_device_by_ifaddrs` returns 1, nothing
is printed and the process does not exit. -/
theorem down_interface_after_two_matches_skipped :
    eth0_down_entry.ifa_name = some "eth0"
      ∧ reaches_check (some "eth0") eth0_down_entry = true
      ∧ flags_ok eth0_down_entry.ifa_flags = false
      ∧ find_device_by_ifaddrs (some [anon_entry, anon_entry, eth0_down_entry])
          sample_nametoindex (fd_start (some "eth0"))
        = Outcome.returned 1
            ⟨{ (fd_start (some "eth0")).dev with ifa := some anon_entry }, ""⟩
      ∧ find_device_by_ifaddrs (some [eth0_entry, eth0_entry, eth0_down_entry])
          sample_nametoindex (fd_start (some "eth0"))
        = Outcome.returned 1
            ⟨{ (fd_start (some "eth0")).dev with ifa := some eth0_entry }, ""⟩ := by
  decide

/-- C8 (amended): a name is supplied, and `x` is the first link-layer entry
passing the name filter that is down, or loopback or ARP-disabled. When fewer
than two eligible entries passing the name filter come before `x`,
`check_ifflags` is called on `x` with `fatal` set, prints that the interface is
down or is not ARPable, and the process exits with status 2: `find_device`
does not return and no later strategy runs, whatever the later strategies are.
When two or more come before `x`, the loop has stopped before `x` and
`find_device` returns 1. The function `check_ifflags` returns -1 only when
`fatal` is clear, and with no name supplied such an entry is skipped and the
enumeration goes on. -/
theorem named_ineligible_aborts (pre rest : List ifaddrs) (idx : String → Nat)
    (st : FdState) (name : String) (x : ifaddrs) (s2 s3 : FdState → Outcome FdState)
    (hname : st.dev.name = some name)
    (hpre : ∀ y ∈ pre, reaches_check (some name) y = true → flags_ok y.ifa_flags = true)
    (hx : reaches_check (some name) x = true)
    (hbad : flags_ok x.ifa_flags = false) :
    ((pre.filter (eligible (some name))).length < 2 →
        find_device (find_device_by_ifaddrs (some (pre ++ x :: rest)) idx) s2 s3 st
          = Outcome.exited 2
              ⟨{ st.dev with
                  ifa := match pre.filter (eligible (some name)) with
                    | [] => st.dev.ifa
                    | a :: _ => some a },
                st.stdout ++ flag_message (some name) x.ifa_flags⟩)
      ∧ (∀ a b r, pre.filter (eligible (some name)) = a :: b :: r →
          find_device (find_device_by_ifaddrs (some (pre ++ x :: rest)) idx) s2 s3 st
            = Outcome.returned 1 ⟨{ st.dev with ifa := some b }, st.stdout⟩)
      ∧ (flag_message (some name) x.ifa_flags = "Interface \"" ++ name ++ "\" is down\n"
          ∨ flag_message (some name) x.ifa_flags
              = "Interface \"" ++ name ++ "\" is not ARPable\n")
      ∧ (∀ out, check_ifflags x.ifa_flags true (some name) out
          = Outcome.exited 2 (out ++ flag_message (some name) x.ifa_flags))
      ∧ (∀ devname out, check_ifflags x.ifa_flags false devname out = Outcome.returned (-1) out)
      ∧ (∀ ifflags fatal devname out out1,
          check_ifflags ifflags fatal devname out = Outcome.returned (-1) out1 → fatal = false)
      ∧ (∀ (tail : List ifaddrs) (sel : Option ifaddrs) (count : Nat) (out : String),
          ifaddrs_loop none (x :: tail) sel count out = ifaddrs_loop none tail sel count out) := by
  have hb : ¬ flags_ok x.ifa_flags = true := by rw [hbad]; decide
  have hsafe : loop_safe (some name) pre := fun y hy hr _ => hpre y hy hr
  have hloop := ifaddrs_loop_append_zero (some name) (x :: rest) pre st.dev.ifa st.stdout hsafe
  refine ⟨?_, ?_, ?_, ?_, ?_, ?_, ?_⟩
  · intro hlen
    cases hf : pre.filter (eligible (some name)) with
    | nil =>
      rw [hf] at hloop
      simp only [ifaddrs_loop_exit_at name x hx hbad] at hloop
      simp only [find_device, find_device_by_ifaddrs, hname, hloop]
    | cons a r =>
      cases r with
      | nil =>
        rw [hf] at hloop
        simp only [ifaddrs_loop_exit_at name x hx hbad] at hloop
        simp only [find_device, find_device_by_ifaddrs, hname, hloop]
      | cons b r2 =>
        rw [hf] at hlen
        simp only [List.length_cons] at hlen
        omega
  · intro a b r hf
    rw [hf] at hloop
    simp only at hloop
    simp [find_device, find_device_by_ifaddrs, hname, hloop]
  · unfold flag_message printf_s
    by_cases hup : x.ifa_flags &&& IFF_UP = 0
    · left; simp [hup]
    · right; simp [hup]
  · intro out
    rw [check_ifflags_eq, if_neg hb, if_pos rfl]
  · intro devname out
    rw [check_ifflags_eq, if_neg hb, if_neg (by decide)]
  · intro ifflags fatal devname out out1 h
    rw [check_ifflags_eq] at h
    by_cases hok : flags_ok ifflags = true
    · rw [if_pos hok] at h
      simp at h
    · rw [if_neg hok] at h
      cases fatal with
      | false => rfl
      | true => simp at h
  · intro tail sel count out
    rw [ifaddrs_loop_cons]
    by_cases h1 : reaches_check none x = true
    · rw [if_pos h1, if_neg hb, if_neg (by decide)]
    · rw [if_neg h1]

/-- Asking for `eth0` while it is down ends the process with status 2. -/
theorem named_ineligible_aborts_witness :
    find_device (find_device_by_ifaddrs (some ([lo_entry] ++ eth0_down_entry :: [eth1_entry]))
        sample_nametoindex) (later_strategy 0) (later_strategy 0) (fd_start (some "eth0"))
      = Outcome.exited 2
          ⟨{ (fd_start (some "eth0")).dev with
              ifa := match [lo_entry].filter (eligible (some "eth0")) with
                | [] => (fd_start (some "eth0")).dev.ifa
                | a :: _ => some a },
            (fd_start (some "eth0")).stdout
              ++ flag_message (some "eth0") eth0_down_entry.ifa_flags⟩ :=
  (named_ineligible_aborts [lo_entry] [eth1_entry] sample_nametoindex
    (fd_start (some "eth0")) "eth0" eth0_down_entry (later_strategy 0) (later_strategy 0)
    rfl (by decide) (by decide) (by decide)).1 (by decide)

/-- C9, as stated, fails: with the name `eth0` supplied and two eligible
entries of that name, `find_device_by_ifaddrs` returns 1 (not found) and
`dev->ifa` is the second entry, not the first. With a single eligible entry of
that name it returns -1 when `if_nametoindex` does not resolve the name. And
with an entry of that name that is down ahead of the eligible one, the process
exits with status 2. -/
theorem two_named_matches_not_found :
    eligible (some "eth0") eth0_entry = true
      ∧ eth0_entry.ifa_name = some "eth0"
      ∧ find_device_by_ifaddrs
          (some [eth0_entry, { eth0_entry with ifa_flags := 0x1003 }])
          sample_nametoindex (fd_start (some "eth0"))
        = Outcome.returned 1
            ⟨{ (fd_start (some "eth0")).dev with
                ifa := some { eth0_entry with ifa_flags := 0x1003 } }, ""⟩
      ∧ find_device_by_ifaddrs (some [eth0_entry]) (fun _ => 0) (fd_start (some "eth0"))
        = Outcome.returned (-1)
            ⟨{ (fd_start (some "eth0")).dev with ifa := some eth0_entry, ifindex := 0 }, ""⟩
      ∧ find_device_by_ifaddrs (some [eth0_down_entry, eth0_entry]) sample_nametoindex
          (fd_start (some "eth0"))
        = Outcome.exited 2 ⟨(fd_start (some "eth0")).dev, "Interface \"eth0\" is down\n"⟩ := by
  decide

/-- C9 (amended): a name is supplied and no link-layer entry that passes the
name filter is down, loopback or ARP-disabled. When exactly one entry passes
the name filter and is eligible, it carries the name, and `if_nametoindex`
gives a non-zero index for the name, `find_device_by_ifaddrs` returns 0,
`dev->ifa` is that entry, the first eligible one of that name in enumeration
order, and `dev->ifindex` holds that index converted to `int` (the index
itself when it is below `2^31`). When two or more entries pass the name filter
and are eligible, it returns 1. -/
theorem resolution_by_name (l : List ifaddrs) (idx : String → Nat) (st : FdState)
    (name : String) (hname : st.dev.name = some name)
    (hflags : ∀ x ∈ l, reaches_check (some name) x = true → flags_ok x.ifa_flags = true) :
    (∀ a, l.filter (eligible (some name)) = [a] → a.ifa_name = some name →
        idx name % 4294967296 ≠ 0 →
        find_device_by_ifaddrs (some l) idx st
            = Outcome.returned 0
                ⟨{ st.dev with ifa := some a, ifindex := int_of_unsigned (idx name) }, st.stdout⟩
          ∧ l.find? (eligible (some name)) = some a)
      ∧ (∀ a b r, l.filter (eligible (some name)) = a :: b :: r →
          find_device_by_ifaddrs (some l) idx st
            = Outcome.returned 1 ⟨{ st.dev with ifa := some b }, st.stdout⟩)
      ∧ (∀ u : Nat, u < 2147483648 → int_of_unsigned u = (u : Int)) := by
  have hsafe : loop_safe st.dev.name l := by
    intro x hx hr _
    rw [hname] at hr
    exact hflags x hx hr
  have heq := find_device_by_ifaddrs_eq l idx st hsafe
  rw [hname] at heq
  refine ⟨?_, ?_, int_of_unsigned_of_lt⟩
  · intro a ha hn hi
    constructor
    · rw [heq, ha]
      simp only [hn, if_neg hi]
    · have hhead := congrArg List.head? ha
      rw [List.filter_head?] at hhead
      exact hhead
  · intro a b r hf
    rw [heq, hf]

/-- Asking for `eth1` selects it, with index 3. -/
theorem resolution_by_name_witness :
    find_device_by_ifaddrs (some [lo_entry, eth0_entry, eth1_entry]) sample_nametoindex
        (fd_start (some "eth1"))
      = Outcome.returned 0
          ⟨{ (fd_start (some "eth1")).dev with
              ifa := some eth1_entry, ifindex := int_of_unsigned (sample_nametoindex "eth1") },
            (fd_start (some "eth1")).stdout⟩ :=
  ((resolution_by_name [lo_entry, eth0_entry, eth1_entry] sample_nametoindex
    (fd_start (some "eth1")) "eth1" rfl (by decide)).1 eth1_entry (by decide) (by decide)
    (by decide)).1
end Arptest
